import Mathlib

/-!
Verification development for the Data-catalog repository (TypeScript,
Controller → Service → Repository → PostgreSQL/TypeORM).

The definitions below are a shallow embedding of the service layer
(`TrackingPlanService`, `EventService`, `PropertyService`), the repository
layer (`BaseRepository` and its subclasses) and the storage state.

Modelling choices, stated once:
* `uuid` primary keys are modelled as `Nat`, generated from a `nextId` counter.
* `Date` values are modelled as `Nat`; `new Date()` reads the fixed `now`
  field of the ambient state (time does not advance inside one operation).
* A JSONB `validation_rules` value is an ordered list of key/JSON-value
  pairs (`Rules`), because `JSON.stringify` — which the source uses for rule
  comparison — serializes object keys in insertion order.  JSON values are
  restricted to the scalar shapes that `PropertyValidationRules` and
  `validatePropertyRules` actually inspect (null, boolean, number, string,
  array of strings).
* A candidate DTO whose `validation_rules` is JS `undefined` and a stored
  row whose column is database `null` are both `Option.none`; `rulesStr`
  mirrors `JSON.stringify(x || null)`, i.e. the source's normalization.
* `new RegExp(..)` compilation success is external JS behaviour and is
  passed in as an oracle `regexOk : String → Bool`; the JS string coercion
  applied by `new RegExp` to non-string arguments is `jsToString`.
* TypeORM semantics of the source: repositories obtained from
  `AppDataSource` (the `BaseRepository` subclasses) execute on the default
  connection and auto-commit immediately; only repositories obtained from
  `queryRunner.manager` take part in the transaction opened by
  `startTransaction`.  In `TrackingPlanService` the query runner only ever
  touches the `tracking_plan_events` and `event_properties` tables, so the
  transaction is modelled as a buffered copy of exactly those two tables
  (`CState`), committed or discarded as a whole.
* Storage failures at insert time (e.g. a unique-index violation raised by
  PostgreSQL) are injected through a fault script: each insert consumes the
  head of `St.faults`; `some f` makes that insert raise a storage error.
-/

namespace DataCatalog

/-- JSON scalar values that can occur in a `validation_rules` object. -/
inductive JVal where
  | jnull : JVal
  | jbool : Bool → JVal
  | jnum : Int → JVal
  | jstr : String → JVal
  | jarrS : List String → JVal
deriving DecidableEq

/-- A `validation_rules` JSON object: ordered key/value pairs. -/
def Rules : Type := List (String × JVal)

instance : DecidableEq Rules := by
  unfold Rules
  infer_instance

/-- JS truthiness of a JSON value. -/
def JVal.truthy : JVal → Bool
  | .jnull => false
  | .jbool b => b
  | .jnum n => !(n == 0)
  | .jstr s => !(s == "")
  | .jarrS _ => true

/-- Model of `typeof v === 'number'`. -/
def JVal.isNum : JVal → Bool
  | .jnum _ => true
  | _ => false

/-- Model of `typeof v === 'string'`. -/
def JVal.isStr : JVal → Bool
  | .jstr _ => true
  | _ => false

/-- Model of `Array.isArray(v)`. -/
def JVal.isArr : JVal → Bool
  | .jarrS _ => true
  | _ => false

/-- The JS `String(v)` coercion applied by `new RegExp(v)`. -/
def JVal.jsToString : JVal → String
  | .jnull => "null"
  | .jbool b => if b then "true" else "false"
  | .jnum n => toString n
  | .jstr s => s
  | .jarrS xs => String.intercalate "," xs

/-- JSON string quoting (escaping is irrelevant for the values compared here). -/
def jsonQuote (s : String) : String := "\"" ++ s ++ "\""

/-- Model of `JSON.stringify` of a JSON scalar value. -/
def JVal.toJson : JVal → String
  | .jnull => "null"
  | .jbool b => if b then "true" else "false"
  | .jnum n => toString n
  | .jstr s => jsonQuote s
  | .jarrS xs => "[" ++ String.intercalate "," (xs.map jsonQuote) ++ "]"

/-- Model of `JSON.stringify` of a rules object (keys in insertion order). -/
def rulesToJson (r : Rules) : String :=
  "\x7b" ++ String.intercalate "," (r.map fun kv => jsonQuote kv.1 ++ ":" ++ kv.2.toJson) ++ "\x7d"

/-- Model of `JSON.stringify(x || null)`: the exact comparison key the source builds for
validation-rule sets (`PropertyService.findOrCreateProperty`), after its
null/undefined normalization. -/
def rulesStr : Option Rules → String
  | none => "null"
  | some r => rulesToJson r

/-- Model of `rules[k]` on a JS object (`undefined` ↦ `none`). -/
def getField (r : Rules) (k : String) : Option JVal :=
  (r.find? fun kv => kv.1 == k).map fun kv => kv.2

/-! ## Persistent rows (entities) -/

/-- A row of `tracking_plans`. -/
structure PlanRow where
  id : Nat
  name : String
  description : String
  create_time : Nat
  update_time : Nat
  is_deleted : Bool
  deleted_at : Option Nat
deriving DecidableEq

/-- A row of `events`. -/
structure EventRow where
  id : Nat
  name : String
  type : String
  description : String
  create_time : Nat
  update_time : Nat
  is_deleted : Bool
  deleted_at : Option Nat
deriving DecidableEq

/-- A row of `properties`. -/
structure PropRow where
  id : Nat
  name : String
  type : String
  description : String
  validation_rules : Option Rules
  create_time : Nat
  update_time : Nat
  is_deleted : Bool
  deleted_at : Option Nat
deriving DecidableEq

/-- A row of `tracking_plan_events` (plan–event link). -/
structure TpeRow where
  id : Nat
  tracking_plan_id : Nat
  event_id : Nat
  additional_properties : Bool
  created_at : Nat
  is_deleted : Bool
  deleted_at : Option Nat
deriving DecidableEq

/-- A row of `event_properties` (event–property link scoped to a plan-event link). -/
structure EpRow where
  id : Nat
  tracking_plan_event_id : Nat
  property_id : Nat
  required : Bool
  created_at : Nat
  is_deleted : Bool
  deleted_at : Option Nat
deriving DecidableEq

/-- The persistent store. -/
structure DB where
  plans : List PlanRow
  events : List EventRow
  props : List PropRow
  planEvents : List TpeRow
  eventProps : List EpRow
  nextId : Nat
deriving DecidableEq

/-- A storage fault injected at an insert (`dup` marks a duplicate-key /
unique-constraint violation as opposed to a generic failure). -/
structure StorageFault where
  msg : String
  dup : Bool
deriving DecidableEq

/-- Ambient state: committed database, pending fault script, current time. -/
structure St where
  db : DB
  faults : List (Option StorageFault)
  now : Nat
deriving DecidableEq

/-! ## Repository finders (all filter `is_deleted: false`, as in the source) -/

/-- Model of `TrackingPlanRepository.findByName`. -/
def findPlanByName (plans : List PlanRow) (n : String) : Option PlanRow :=
  plans.find? fun p => p.name == n && !p.is_deleted

/-- Model of `TrackingPlanRepository.findByNameExcludingId`. -/
def findPlanByNameExcludingId (plans : List PlanRow) (n : String) (ex : Nat) : Option PlanRow :=
  plans.find? fun p => p.name == n && !p.is_deleted && !(p.id == ex)

/-- Model of `BaseRepository.findById` on `tracking_plans`. -/
def findPlanById (plans : List PlanRow) (i : Nat) : Option PlanRow :=
  plans.find? fun p => p.id == i && !p.is_deleted

/-- Model of `EventRepository.findByNameAndType`. -/
def findEventByNameAndType (events : List EventRow) (n t : String) : Option EventRow :=
  events.find? fun e => e.name == n && e.type == t && !e.is_deleted

/-- Model of `EventRepository.findByNameAndTypeExcludingId`. -/
def findEventByNameAndTypeExcludingId (events : List EventRow) (n t : String) (ex : Nat) :
    Option EventRow :=
  events.find? fun e => e.name == n && e.type == t && !e.is_deleted && !(e.id == ex)

/-- Model of `BaseRepository.findById` on `events`. -/
def findEventById (events : List EventRow) (i : Nat) : Option EventRow :=
  events.find? fun e => e.id == i && !e.is_deleted

/-- Model of `PropertyRepository.findByNameAndType`. -/
def findPropByNameAndType (props : List PropRow) (n t : String) : Option PropRow :=
  props.find? fun p => p.name == n && p.type == t && !p.is_deleted

/-- Model of `PropertyRepository.findByNameAndTypeExcludingId`. -/
def findPropByNameAndTypeExcludingId (props : List PropRow) (n t : String) (ex : Nat) :
    Option PropRow :=
  props.find? fun p => p.name == n && p.type == t && !p.is_deleted && !(p.id == ex)

/-- Model of `BaseRepository.findById` on `properties`. -/
def findPropById (props : List PropRow) (i : Nat) : Option PropRow :=
  props.find? fun p => p.id == i && !p.is_deleted

/-- TypeORM relation join by primary key (no soft-delete filter). -/
def eventRowById (events : List EventRow) (i : Nat) : Option EventRow :=
  events.find? fun e => e.id == i

/-- TypeORM relation join by primary key (no soft-delete filter). -/
def propRowById (props : List PropRow) (i : Nat) : Option PropRow :=
  props.find? fun p => p.id == i

/-! ## Errors and service results -/

/-- The exceptions thrown inside the services (`src/utils/errors.ts`), plus the
storage-layer `QueryFailedError` (last constructor, with a duplicate-key marker). -/
inductive ThrownError where
  | validation : String → ThrownError
  | notFound : String → ThrownError
  | conflict : String → ThrownError
  | uniqueConstraint : String → String → ThrownError
  | storage : String → Bool → ThrownError
deriving DecidableEq

/-- Model of `error.message` as read by the services' catch blocks. -/
def ThrownError.message : ThrownError → String
  | .validation m => m
  | .notFound r => r ++ " not found"
  | .conflict m => m
  | .uniqueConstraint f v => f ++ " \x27" ++ v ++ "\x27 already exists"
  | .storage m _ => m

/-- Model of `ServiceResponse<T>`: `{success: true, data}` or `{success: false, error: {code, message}}`. -/
inductive ServiceResponse (α : Type) where
  | ok : α → ServiceResponse α
  | err : String → String → ServiceResponse α
deriving DecidableEq

/-- Whether a service response is a success. -/
def ServiceResponse.isOk {α : Type} : ServiceResponse α → Bool
  | .ok _ => true
  | .err _ _ => false

/-- The try/catch wrapper every public service method uses: a thrown error is
converted into a structured failure carrying that method's error code. -/
def wrap {α : Type} (code : String) (r : Except ThrownError α × St) : ServiceResponse α × St :=
  match r with
  | (.ok a, s) => (.ok a, s)
  | (.error e, s) => (.err code e.message, s)

/-! ## DTOs -/

/-- Model of `CreateEventDto`. -/
structure CreateEventDto where
  name : String
  type : String
  description : String
  create_time : Option Nat
deriving DecidableEq

/-- Model of `CreatePropertyDto`. -/
structure CreatePropertyDto where
  name : String
  type : String
  description : String
  validation_rules : Option Rules
  create_time : Option Nat
deriving DecidableEq

/-- Model of `EventPropertyDto` (a property definition nested in a plan's event). -/
structure EventPropertyDto where
  name : String
  type : String
  required : Bool
  description : String
  validation_rules : Option Rules
deriving DecidableEq

/-- Model of `TrackingPlanEventDto`. -/
structure TrackingPlanEventDto where
  name : String
  type : String
  description : String
  properties : List EventPropertyDto
  additionalProperties : Bool
deriving DecidableEq

/-- Model of `CreateTrackingPlanDto`. -/
structure CreateTrackingPlanDto where
  name : String
  description : String
  events : List TrackingPlanEventDto
  create_time : Option Nat
deriving DecidableEq

/-- Model of `UpdateTrackingPlanDto`. -/
structure UpdateTrackingPlanDto where
  name : Option String
  description : Option String
  events : Option (List TrackingPlanEventDto)
deriving DecidableEq

/-- Model of `UpdateEventDto`. -/
structure UpdateEventDto where
  name : Option String
  type : Option String
  description : Option String
deriving DecidableEq

/-- Model of `UpdatePropertyDto`. -/
structure UpdatePropertyDto where
  name : Option String
  type : Option String
  description : Option String
  validation_rules : Option Rules
deriving DecidableEq

/-! ## Response DTOs -/

/-- Nested property entry of a tracking-plan response. -/
structure PropRespDto where
  id : Nat
  name : String
  type : String
  description : String
  required : Bool
  validation_rules : Option Rules
deriving DecidableEq

/-- Nested event entry of a tracking-plan response. -/
structure EventRespDto where
  id : Nat
  name : String
  type : String
  description : String
  additionalProperties : Bool
  properties : List PropRespDto
deriving DecidableEq

/-- Model of `TrackingPlanResponseDto`. -/
structure TPRespDto where
  id : Nat
  name : String
  description : String
  create_time : Nat
  update_time : Nat
  is_deleted : Bool
  deleted_at : Option Nat
  events : List EventRespDto
deriving DecidableEq

/-! ## Storage primitives -/

/-- Consume the next entry of the fault script (inserts only). -/
def popFault (st : St) : Option StorageFault × St :=
  match st.faults with
  | [] => (none, st)
  | f :: rest => (f, { st with faults := rest })

/-- Model of `BaseRepository.create` on `events` (auto-committed: runs outside the
query-runner transaction).  `create_time: data.create_time || new Date()`. -/
def insertEventRow (d : CreateEventDto) (st : St) : Except ThrownError EventRow × St :=
  match popFault st with
  | (some f, st') => (.error (.storage f.msg f.dup), st')
  | (none, st') =>
    let row : EventRow :=
      { id := st'.db.nextId, name := d.name, type := d.type, description := d.description,
        create_time := d.create_time.getD st'.now, update_time := st'.now,
        is_deleted := false, deleted_at := none }
    (.ok row,
      { st' with db := { st'.db with events := st'.db.events ++ [row],
                                     nextId := st'.db.nextId + 1 } })

/-- Model of `BaseRepository.create` on `properties` (auto-committed). -/
def insertPropRow (d : CreatePropertyDto) (st : St) : Except ThrownError PropRow × St :=
  match popFault st with
  | (some f, st') => (.error (.storage f.msg f.dup), st')
  | (none, st') =>
    let row : PropRow :=
      { id := st'.db.nextId, name := d.name, type := d.type, description := d.description,
        validation_rules := d.validation_rules,
        create_time := d.create_time.getD st'.now, update_time := st'.now,
        is_deleted := false, deleted_at := none }
    (.ok row,
      { st' with db := { st'.db with props := st'.db.props ++ [row],
                                     nextId := st'.db.nextId + 1 } })

/-- Model of `BaseRepository.create` on `tracking_plans` (auto-committed). -/
def insertPlanRow (name description : String) (create_time : Option Nat) (st : St) :
    Except ThrownError PlanRow × St :=
  match popFault st with
  | (some f, st') => (.error (.storage f.msg f.dup), st')
  | (none, st') =>
    let row : PlanRow :=
      { id := st'.db.nextId, name := name, description := description,
        create_time := create_time.getD st'.now, update_time := st'.now,
        is_deleted := false, deleted_at := none }
    (.ok row,
      { st' with db := { st'.db with plans := st'.db.plans ++ [row],
                                     nextId := st'.db.nextId + 1 } })

/-! ## Conflict messages (string interpolations of the source) -/

/-- Message of the Conflict thrown by `EventService.findOrCreateEvent`. -/
def eventConflictMsg (n t : String) : String :=
  "Event \x27" ++ n ++ "\x27 of type \x27" ++ t ++ "\x27 already exists with different description"

/-- Description-conflict message of `PropertyService.findOrCreateProperty`. -/
def propConflictDescMsg (n t : String) : String :=
  "Property \x27" ++ n ++ "\x27 of type \x27" ++ t ++
    "\x27 already exists with different description"

/-- Validation-rules-conflict message of `PropertyService.findOrCreateProperty`. -/
def propConflictRulesMsg (n t : String) : String :=
  "Property \x27" ++ n ++ "\x27 of type \x27" ++ t ++
    "\x27 already exists with different validation rules"

/-! ## Identity resolvers and rule validation -/

/-- Model of `EventService.findOrCreateEvent` (the Event identity resolver). -/
def findOrCreateEvent (d : CreateEventDto) (st : St) : Except ThrownError EventRow × St :=
  match findEventByNameAndType st.db.events d.name d.type with
  | some e =>
    if e.description == d.description then (.ok e, st)
    else (.error (.conflict (eventConflictMsg d.name d.type)), st)
  | none => insertEventRow d st

/-- One `if (rules.k && !ok(rules.k)) throw new ValidationError(msg)` check of
`PropertyService.validatePropertyRules` (JS truthiness included). -/
def ruleFieldCheck (v : Option JVal) (isOk : JVal → Bool) (msg : String) :
    Except ThrownError Unit :=
  match v with
  | some x => if x.truthy && !(isOk x) then .error (.validation msg) else .ok ()
  | none => .ok ()

/-- Sequential composition of two throwing checks: the first thrown error wins
(the statement order of the source's `if`/`throw` blocks). -/
def andThenCheck : Except ThrownError Unit → Except ThrownError Unit → Except ThrownError Unit
  | .error e, _ => .error e
  | .ok _, b => b

/-- The `if/else if` ladder on the declared type at the top of
`PropertyService.validatePropertyRules`. -/
def typeChecksFor (r : Rules) (ty : String) : Except ThrownError Unit :=
  if ty == "string" then
    andThenCheck
      (ruleFieldCheck (getField r "min") JVal.isNum
        "String property min length must be a number")
      (andThenCheck
        (ruleFieldCheck (getField r "max") JVal.isNum
          "String property max length must be a number")
        (ruleFieldCheck (getField r "regex") JVal.isStr
          "String property regex must be a string"))
  else if ty == "number" then
    andThenCheck
      (ruleFieldCheck (getField r "min") JVal.isNum
        "Number property min value must be a number")
      (ruleFieldCheck (getField r "max") JVal.isNum
        "Number property max value must be a number")
  else if ty == "boolean" then
    ruleFieldCheck (getField r "enum") JVal.isArr "Boolean property enum must be an array"
  else .ok ()

/-- The trailing `if (rules.regex) try new RegExp ... catch throw` block of
`validatePropertyRules` (runs for every declared type). -/
def regexCompileCheck (regexOk : String → Bool) (r : Rules) : Except ThrownError Unit :=
  match getField r "regex" with
  | some x =>
    if x.truthy && !(regexOk x.jsToString) then
      .error (.validation "Invalid regex pattern in validation rules")
    else .ok ()
  | none => .ok ()

/-- Model of `PropertyService.validatePropertyRules`. -/
def validatePropertyRules (regexOk : String → Bool) (r : Rules) (ty : String) :
    Except ThrownError Unit :=
  andThenCheck (typeChecksFor r ty) (regexCompileCheck regexOk r)

/-- Model of `PropertyService.findOrCreateProperty` (the Property identity resolver).
The rule comparison is `JSON.stringify(existing || null) !== JSON.stringify(candidate || null)`,
modelled by `rulesStr`. -/
def findOrCreateProperty (regexOk : String → Bool) (d : CreatePropertyDto) (st : St) :
    Except ThrownError PropRow × St :=
  match findPropByNameAndType st.db.props d.name d.type with
  | some p =>
    if !(p.description == d.description) then
      (.error (.conflict (propConflictDescMsg d.name d.type)), st)
    else if !(rulesStr p.validation_rules == rulesStr d.validation_rules) then
      (.error (.conflict (propConflictRulesMsg d.name d.type)), st)
    else (.ok p, st)
  | none =>
    match (match d.validation_rules with
           | some r => validatePropertyRules regexOk r d.type
           | none => Except.ok ()) with
    | .error e => (.error e, st)
    | .ok _ => insertPropRow d st

/-! ## The query-runner transaction -/

/-- Transaction state of a `createTrackingPlan`/`updateTrackingPlan` request:
the committed state plus a buffered copy of the only two tables the query
runner touches (`tracking_plan_events`, `event_properties`). -/
structure CState where
  st : St
  txPE : List TpeRow
  txEP : List EpRow

/-- Model of `queryRunner.startTransaction()`. -/
def startTx (st : St) : CState :=
  { st := st, txPE := st.db.planEvents, txEP := st.db.eventProps }

/-- Model of `queryRunner.commitTransaction()`: the buffered tables become committed. -/
def commitTx (cs : CState) : St :=
  { cs.st with db := { cs.st.db with planEvents := cs.txPE, eventProps := cs.txEP } }

/-- Model of `queryRunner.rollbackTransaction()`: the buffered tables are discarded,
but every write that went through an `AppDataSource` repository (plans,
events, properties) has already auto-committed and stays. -/
def rollbackTx (cs : CState) : St :=
  cs.st

/-- Model of `queryRunner.manager.getRepository(TrackingPlanEvent).save(...)` (transactional). -/
def insertTpeRow (planId eventId : Nat) (addProps : Bool) (cs : CState) :
    Except ThrownError TpeRow × CState :=
  match popFault cs.st with
  | (some f, st') => (.error (.storage f.msg f.dup), { cs with st := st' })
  | (none, st') =>
    let row : TpeRow :=
      { id := st'.db.nextId, tracking_plan_id := planId, event_id := eventId,
        additional_properties := addProps, created_at := st'.now,
        is_deleted := false, deleted_at := none }
    (.ok row,
      { cs with st := { st' with db := { st'.db with nextId := st'.db.nextId + 1 } },
                txPE := cs.txPE ++ [row] })

/-- Model of `queryRunner.manager.getRepository(EventProperty).save(...)` (transactional). -/
def insertEpRow (tpeId propId : Nat) (required : Bool) (cs : CState) :
    Except ThrownError EpRow × CState :=
  match popFault cs.st with
  | (some f, st') => (.error (.storage f.msg f.dup), { cs with st := st' })
  | (none, st') =>
    let row : EpRow :=
      { id := st'.db.nextId, tracking_plan_event_id := tpeId, property_id := propId,
        required := required, created_at := st'.now,
        is_deleted := false, deleted_at := none }
    (.ok row,
      { cs with st := { st' with db := { st'.db with nextId := st'.db.nextId + 1 } },
                txEP := cs.txEP ++ [row] })

/-! ## createTrackingPlan -/

/-- The inner property loop of `createTrackingPlan` (lines 81–108). -/
def processPropsCreate (regexOk : String → Bool) (ct : Option Nat) (tpeId : Nat)
    (ps : List EventPropertyDto) (cs : CState) :
    Except ThrownError (List PropRespDto) × CState :=
  match ps with
  | [] => (.ok [], cs)
  | pd :: rest =>
    match findOrCreateProperty regexOk
        { name := pd.name, type := pd.type, description := pd.description,
          validation_rules := pd.validation_rules, create_time := ct } cs.st with
    | (.error e, st') => (.error e, { cs with st := st' })
    | (.ok prop, st') =>
      match insertEpRow tpeId prop.id pd.required { cs with st := st' } with
      | (.error e, cs2) => (.error e, cs2)
      | (.ok _, cs2) =>
        match processPropsCreate regexOk ct tpeId rest cs2 with
        | (.error e, cs3) => (.error e, cs3)
        | (.ok tail, cs3) =>
          (.ok ({ id := prop.id, name := prop.name, type := prop.type,
                  description := prop.description, required := pd.required,
                  validation_rules := prop.validation_rules } :: tail), cs3)

/-- The event loop of `createTrackingPlan` (lines 60–118). -/
def processEventsCreate (regexOk : String → Bool) (ct : Option Nat) (planId : Nat)
    (evs : List TrackingPlanEventDto) (cs : CState) :
    Except ThrownError (List EventRespDto) × CState :=
  match evs with
  | [] => (.ok [], cs)
  | ed :: rest =>
    match findOrCreateEvent
        { name := ed.name, type := ed.type, description := ed.description,
          create_time := ct } cs.st with
    | (.error e, st') => (.error e, { cs with st := st' })
    | (.ok ev, st') =>
      match insertTpeRow planId ev.id ed.additionalProperties { cs with st := st' } with
      | (.error e, cs2) => (.error e, cs2)
      | (.ok tpe, cs2) =>
        match processPropsCreate regexOk ct tpe.id ed.properties cs2 with
        | (.error e, cs3) => (.error e, cs3)
        | (.ok props, cs3) =>
          match processEventsCreate regexOk ct planId rest cs3 with
          | (.error e, cs4) => (.error e, cs4)
          | (.ok tail, cs4) =>
            (.ok ({ id := ev.id, name := ev.name, type := ev.type,
                    description := ev.description,
                    additionalProperties := ed.additionalProperties,
                    properties := props } :: tail), cs4)

/-- Body of `TrackingPlanService.createTrackingPlan` inside the try block. -/
def createTrackingPlanBody (regexOk : String → Bool) (data : CreateTrackingPlanDto)
    (cs : CState) : Except ThrownError TPRespDto × CState :=
  match findPlanByName cs.st.db.plans data.name with
  | some _ => (.error (.uniqueConstraint "TrackingPlan" data.name), cs)
  | none =>
    match insertPlanRow data.name data.description data.create_time cs.st with
    | (.error e, st') => (.error e, { cs with st := st' })
    | (.ok plan, st') =>
      match processEventsCreate regexOk data.create_time plan.id data.events
          { cs with st := st' } with
      | (.error e, cs2) => (.error e, cs2)
      | (.ok evResp, cs2) =>
        (.ok { id := plan.id, name := plan.name, description := plan.description,
               create_time := plan.create_time, update_time := plan.update_time,
               is_deleted := plan.is_deleted, deleted_at := plan.deleted_at,
               events := evResp }, cs2)

/-- Model of `TrackingPlanService.createTrackingPlan`: success commits the transaction,
any thrown error rolls it back and is returned as a structured failure. -/
def createTrackingPlan (regexOk : String → Bool) (data : CreateTrackingPlanDto) (st : St) :
    ServiceResponse TPRespDto × St :=
  match createTrackingPlanBody regexOk data (startTx st) with
  | (.ok resp, cs) => (.ok resp, commitTx cs)
  | (.error e, cs) => (.err "CREATE_TRACKING_PLAN_ERROR" e.message, rollbackTx cs)

/-! ## Response mapping and filters -/

/-- JS truthiness of an optional string (`undefined` and `""` are falsy). -/
def strTruthy (o : Option String) : Bool :=
  match o with
  | some s => !(s == "")
  | none => false

/-- Model of `o || d` for strings under JS truthiness. -/
def strOr (o : Option String) (d : String) : String :=
  match o with
  | some s => if s == "" then d else s
  | none => d

/-- Char-list prefix test (helper for the ILike model). -/
def charsStartWith : List Char → List Char → Bool
  | [], _ => true
  | _ :: _, [] => false
  | a :: as, b :: bs => a == b && charsStartWith as bs

/-- Char-list containment test (helper for the ILike model). -/
def charsContain (n : List Char) : List Char → Bool
  | [] => charsStartWith n []
  | c :: t => charsStartWith n (c :: t) || charsContain n t

/-- SQL `ILike '%needle%'`: case-insensitive substring match. -/
def strContainsCI (hay needle : String) : Bool :=
  charsContain needle.toLower.toList hay.toLower.toList

/-- Model of `TrackingPlanFilter`. -/
structure TrackingPlanFilter where
  name : Option String
  description : Option String
deriving DecidableEq

/-- Model of `EventFilter`. -/
structure EventFilter where
  name : Option String
  type : Option String
  description : Option String
deriving DecidableEq

/-- Model of `PropertyFilter`. -/
structure PropertyFilter where
  name : Option String
  type : Option String
  description : Option String
deriving DecidableEq

/-- Model of `PaginationOptions`. -/
structure PaginationOptions where
  page : Option Nat
  limit : Option Nat
deriving DecidableEq

/-- Model of `PaginatedResponse<T>`. -/
structure PaginatedResponse (α : Type) where
  data : List α
  page : Nat
  limit : Nat
  total : Nat
  pages : Nat
deriving DecidableEq

/-- Model of `TrackingPlanRepository.findByFilter`. -/
def plansByFilter (plans : List PlanRow) (f : TrackingPlanFilter) : List PlanRow :=
  plans.filter fun p => !p.is_deleted
    && (!strTruthy f.name || strContainsCI p.name (f.name.getD ""))
    && (!strTruthy f.description || strContainsCI p.description (f.description.getD ""))

/-- Model of `EventRepository.findByFilter`. -/
def eventsByFilter (events : List EventRow) (f : EventFilter) : List EventRow :=
  events.filter fun e => !e.is_deleted
    && (!strTruthy f.name || strContainsCI e.name (f.name.getD ""))
    && (!strTruthy f.type || e.type == f.type.getD "")
    && (!strTruthy f.description || strContainsCI e.description (f.description.getD ""))

/-- Model of `PropertyRepository.findByFilter`. -/
def propsByFilter (props : List PropRow) (f : PropertyFilter) : List PropRow :=
  props.filter fun p => !p.is_deleted
    && (!strTruthy f.name || strContainsCI p.name (f.name.getD ""))
    && (!strTruthy f.type || p.type == f.type.getD "")
    && (!strTruthy f.description || strContainsCI p.description (f.description.getD ""))

/-- Model of `findWithEvents` + `mapToResponseDto`: materialize a plan with its
non-deleted links, joining event/property rows by primary key (relation
loading does not filter the joined entity's own soft-delete flag).  The
plan-not-found branch is unreachable where this is used (the service has
just found the plan non-deleted) and returns an empty response. -/
def mapPlanToResponse (db : DB) (i : Nat) : TPRespDto :=
  match findPlanById db.plans i with
  | some p =>
    { id := p.id, name := p.name, description := p.description,
      create_time := p.create_time, update_time := p.update_time,
      is_deleted := p.is_deleted, deleted_at := p.deleted_at,
      events := (db.planEvents.filter fun r =>
          r.tracking_plan_id == i && !r.is_deleted).filterMap fun tpe =>
        (eventRowById db.events tpe.event_id).map fun ev =>
          { id := ev.id, name := ev.name, type := ev.type, description := ev.description,
            additionalProperties := tpe.additional_properties,
            properties := (db.eventProps.filter fun ep =>
                ep.tracking_plan_event_id == tpe.id && !ep.is_deleted).filterMap fun ep =>
              (propRowById db.props ep.property_id).map fun pr =>
                { id := pr.id, name := pr.name, type := pr.type,
                  description := pr.description, required := ep.required,
                  validation_rules := pr.validation_rules } } }
  | none =>
    { id := i, name := "", description := "", create_time := 0, update_time := 0,
      is_deleted := false, deleted_at := none, events := [] }

/-! ## TrackingPlanService: read, update, delete -/

/-- Body of `getTrackingPlanById`. -/
def getTrackingPlanByIdBody (i : Nat) (st : St) : Except ThrownError TPRespDto × St :=
  match findPlanById st.db.plans i with
  | none => (.error (.notFound "TrackingPlan"), st)
  | some _ => (.ok (mapPlanToResponse st.db i), st)

/-- Model of `TrackingPlanService.getTrackingPlanById`. -/
def getTrackingPlanById (i : Nat) (st : St) : ServiceResponse TPRespDto × St :=
  wrap "GET_TRACKING_PLAN_ERROR" (getTrackingPlanByIdBody i st)

/-- Body of `getAllTrackingPlans` (filter, manual pagination, event loading). -/
def getAllTrackingPlansBody (f : TrackingPlanFilter) (pg : PaginationOptions) (st : St) :
    Except ThrownError (PaginatedResponse TPRespDto) × St :=
  let all := plansByFilter st.db.plans f
  let page := pg.page.getD 1
  let limit := pg.limit.getD 10
  let sliced := (all.drop ((page - 1) * limit)).take limit
  let withEvents := sliced.filterMap fun p =>
    if (findPlanById st.db.plans p.id).isSome then some (mapPlanToResponse st.db p.id) else none
  (.ok { data := withEvents, page := page, limit := limit, total := all.length,
         pages := (all.length + limit - 1) / limit }, st)

/-- Model of `TrackingPlanService.getAllTrackingPlans`. -/
def getAllTrackingPlans (f : TrackingPlanFilter) (pg : PaginationOptions) (st : St) :
    ServiceResponse (PaginatedResponse TPRespDto) × St :=
  wrap "GET_ALL_TRACKING_PLANS_ERROR" (getAllTrackingPlansBody f pg st)

/-- The property loop of `updateTrackingPlan` (no `create_time` is forwarded there). -/
def processPropsUpd (regexOk : String → Bool) (tpeId : Nat)
    (ps : List EventPropertyDto) (cs : CState) : Except ThrownError Unit × CState :=
  match ps with
  | [] => (.ok (), cs)
  | pd :: rest =>
    match findOrCreateProperty regexOk
        { name := pd.name, type := pd.type, description := pd.description,
          validation_rules := pd.validation_rules, create_time := none } cs.st with
    | (.error e, st') => (.error e, { cs with st := st' })
    | (.ok prop, st') =>
      match insertEpRow tpeId prop.id pd.required { cs with st := st' } with
      | (.error e, cs2) => (.error e, cs2)
      | (.ok _, cs2) => processPropsUpd regexOk tpeId rest cs2

/-- The event loop of `updateTrackingPlan`. -/
def processEventsUpd (regexOk : String → Bool) (planId : Nat)
    (evs : List TrackingPlanEventDto) (cs : CState) : Except ThrownError Unit × CState :=
  match evs with
  | [] => (.ok (), cs)
  | ed :: rest =>
    match findOrCreateEvent
        { name := ed.name, type := ed.type, description := ed.description,
          create_time := none } cs.st with
    | (.error e, st') => (.error e, { cs with st := st' })
    | (.ok ev, st') =>
      match insertTpeRow planId ev.id ed.additionalProperties { cs with st := st' } with
      | (.error e, cs2) => (.error e, cs2)
      | (.ok tpe, cs2) =>
        match processPropsUpd regexOk tpe.id ed.properties cs2 with
        | (.error e, cs3) => (.error e, cs3)
        | (.ok _, cs3) => processEventsUpd regexOk planId rest cs3

/-- The name-uniqueness guard of `updateTrackingPlan`: only a truthy name that
differs from the current one is checked, against non-deleted plans excluding
the plan's own id. -/
def planNameCheck (data : UpdateTrackingPlanDto) (plans : List PlanRow) (i : Nat)
    (plan : PlanRow) : Except ThrownError Unit :=
  match data.name with
  | some n =>
    if !(n == "") && !(n == plan.name) then
      match findPlanByNameExcludingId plans n i with
      | some _ => .error (.uniqueConstraint "TrackingPlan" n)
      | none => .ok ()
    else .ok ()
  | none => .ok ()

/-- The per-row effect of `trackingPlanRepository.update(id, updateData)`:
fields enter `updateData` only when truthy. -/
def planUpdApply (data : UpdateTrackingPlanDto) (i : Nat) (p : PlanRow) : PlanRow :=
  if p.id == i then
    { p with name := strOr data.name p.name,
             description := strOr data.description p.description }
  else p

/-- Model of `updateData` assembly + `trackingPlanRepository.update` (non-transactional:
it runs on the `AppDataSource` repository, not the query runner). -/
def applyPlanUpdateData (data : UpdateTrackingPlanDto) (i : Nat) (cs : CState) : CState :=
  if strTruthy data.name || strTruthy data.description then
    { cs with st :=
        { cs.st with db :=
            { cs.st.db with plans := cs.st.db.plans.map (planUpdApply data i) } } }
  else cs

/-- Model of `trackingPlanEventRepo.update({tracking_plan_id: id}, {is_deleted: true,
deleted_at: new Date()})` — the transactional soft-delete of the plan's links
(note: only the `tracking_plan_events` table; `event_properties` rows are not
touched). -/
def softDeleteTpeFor (i : Nat) (now : Nat) (pes : List TpeRow) : List TpeRow :=
  pes.map fun r =>
    if r.tracking_plan_id == i then
      { r with is_deleted := true, deleted_at := some now }
    else r

/-- Body of `TrackingPlanService.updateTrackingPlan` inside the try block,
up to (not including) the commit. -/
def updateTrackingPlanBody (regexOk : String → Bool) (i : Nat) (data : UpdateTrackingPlanDto)
    (cs : CState) : Except ThrownError Unit × CState :=
  match findPlanById cs.st.db.plans i with
  | none => (.error (.notFound "TrackingPlan"), cs)
  | some existingPlan =>
    match planNameCheck data cs.st.db.plans i existingPlan with
    | .error e => (.error e, cs)
    | .ok _ =>
      match data.events with
      | none => (.ok (), applyPlanUpdateData data i cs)
      | some evs =>
        processEventsUpd regexOk i evs
          { applyPlanUpdateData data i cs with
            txPE := softDeleteTpeFor i cs.st.now (applyPlanUpdateData data i cs).txPE }

/-- Model of `TrackingPlanService.updateTrackingPlan`: on success the transaction is
committed and the response re-read from the store; any thrown error rolls the
transaction back and is returned as a structured failure. -/
def updateTrackingPlan (regexOk : String → Bool) (i : Nat) (data : UpdateTrackingPlanDto)
    (st : St) : ServiceResponse TPRespDto × St :=
  match updateTrackingPlanBody regexOk i data (startTx st) with
  | (.error e, cs) => (.err "UPDATE_TRACKING_PLAN_ERROR" e.message, rollbackTx cs)
  | (.ok _, cs) =>
    let st' := commitTx cs
    (.ok (mapPlanToResponse st'.db i), st')

/-- Model of `BaseRepository.softDelete` on `tracking_plans`. -/
def softDeletePlans (plans : List PlanRow) (i : Nat) (now : Nat) : List PlanRow :=
  plans.map fun p =>
    if p.id == i then { p with is_deleted := true, deleted_at := some now } else p

/-- Body of `deleteTrackingPlan`. -/
def deleteTrackingPlanBody (i : Nat) (st : St) : Except ThrownError Unit × St :=
  match findPlanById st.db.plans i with
  | none => (.error (.notFound "TrackingPlan"), st)
  | some _ =>
    (.ok (), { st with db := { st.db with plans := softDeletePlans st.db.plans i st.now } })

/-- Model of `TrackingPlanService.deleteTrackingPlan`. -/
def deleteTrackingPlan (i : Nat) (st : St) : ServiceResponse Unit × St :=
  wrap "DELETE_TRACKING_PLAN_ERROR" (deleteTrackingPlanBody i st)

/-! ## EventService -/

/-- Body of `EventService.createEvent`. -/
def createEventBody (d : CreateEventDto) (st : St) : Except ThrownError EventRow × St :=
  match findEventByNameAndType st.db.events d.name d.type with
  | some _ => (.error (.uniqueConstraint "Event" (d.name ++ ":" ++ d.type)), st)
  | none => insertEventRow d st

/-- Model of `EventService.createEvent`. -/
def createEvent (d : CreateEventDto) (st : St) : ServiceResponse EventRow × St :=
  wrap "CREATE_EVENT_ERROR" (createEventBody d st)

/-- Body of `EventService.getEventById`. -/
def getEventByIdBody (i : Nat) (st : St) : Except ThrownError EventRow × St :=
  match findEventById st.db.events i with
  | none => (.error (.notFound "Event"), st)
  | some e => (.ok e, st)

/-- Model of `EventService.getEventById`. -/
def getEventById (i : Nat) (st : St) : ServiceResponse EventRow × St :=
  wrap "GET_EVENT_ERROR" (getEventByIdBody i st)

/-- Body of `EventService.getAllEvents`. -/
def getAllEventsBody (f : EventFilter) (pg : PaginationOptions) (st : St) :
    Except ThrownError (PaginatedResponse EventRow) × St :=
  let all := eventsByFilter st.db.events f
  let page := pg.page.getD 1
  let limit := pg.limit.getD 10
  (.ok { data := (all.drop ((page - 1) * limit)).take limit, page := page, limit := limit,
         total := all.length, pages := (all.length + limit - 1) / limit }, st)

/-- Model of `EventService.getAllEvents`. -/
def getAllEvents (f : EventFilter) (pg : PaginationOptions) (st : St) :
    ServiceResponse (PaginatedResponse EventRow) × St :=
  wrap "GET_ALL_EVENTS_ERROR" (getAllEventsBody f pg st)

/-- Body of `EventService.updateEvent`.  The final lookup mirrors
`repository.update(id, data)` followed by `findById`; the not-found branch
after a successful update is unreachable (`updatedEvent!` in the source). -/
def updateEventBody (i : Nat) (data : UpdateEventDto) (st : St) :
    Except ThrownError EventRow × St :=
  match findEventById st.db.events i with
  | none => (.error (.notFound "Event"), st)
  | some ex =>
    match (if strTruthy data.name || strTruthy data.type then
             match findEventByNameAndTypeExcludingId st.db.events
                 (strOr data.name ex.name) (strOr data.type ex.type) i with
             | some _ => Except.error (ThrownError.uniqueConstraint "Event"
                 (strOr data.name ex.name ++ ":" ++ strOr data.type ex.type))
             | none => Except.ok ()
           else Except.ok ()) with
    | .error e => (.error e, st)
    | .ok _ =>
      let st' := { st with db := { st.db with events := (st.db.events.map fun e =>
          if e.id == i then
            { e with name := data.name.getD e.name, type := data.type.getD e.type,
                     description := data.description.getD e.description }
          else e) } }
      match findEventById st'.db.events i with
      | some r => (.ok r, st')
      | none => (.ok ex, st')

/-- Model of `EventService.updateEvent`. -/
def updateEvent (i : Nat) (data : UpdateEventDto) (st : St) : ServiceResponse EventRow × St :=
  wrap "UPDATE_EVENT_ERROR" (updateEventBody i data st)

/-- Model of `BaseRepository.softDelete` on `events`. -/
def softDeleteEvents (events : List EventRow) (i : Nat) (now : Nat) : List EventRow :=
  events.map fun e =>
    if e.id == i then { e with is_deleted := true, deleted_at := some now } else e

/-- Body of `EventService.deleteEvent`. -/
def deleteEventBody (i : Nat) (st : St) : Except ThrownError Unit × St :=
  match findEventById st.db.events i with
  | none => (.error (.notFound "Event"), st)
  | some _ =>
    (.ok (), { st with db := { st.db with events := softDeleteEvents st.db.events i st.now } })

/-- Model of `EventService.deleteEvent`. -/
def deleteEvent (i : Nat) (st : St) : ServiceResponse Unit × St :=
  wrap "DELETE_EVENT_ERROR" (deleteEventBody i st)

/-! ## PropertyService -/

/-- Body of `PropertyService.createProperty`. -/
def createPropertyBody (regexOk : String → Bool) (d : CreatePropertyDto) (st : St) :
    Except ThrownError PropRow × St :=
  match findPropByNameAndType st.db.props d.name d.type with
  | some _ => (.error (.uniqueConstraint "Property" (d.name ++ ":" ++ d.type)), st)
  | none =>
    match (match d.validation_rules with
           | some r => validatePropertyRules regexOk r d.type
           | none => Except.ok ()) with
    | .error e => (.error e, st)
    | .ok _ => insertPropRow d st

/-- Model of `PropertyService.createProperty`. -/
def createProperty (regexOk : String → Bool) (d : CreatePropertyDto) (st : St) :
    ServiceResponse PropRow × St :=
  wrap "CREATE_PROPERTY_ERROR" (createPropertyBody regexOk d st)

/-- Body of `PropertyService.getPropertyById`. -/
def getPropertyByIdBody (i : Nat) (st : St) : Except ThrownError PropRow × St :=
  match findPropById st.db.props i with
  | none => (.error (.notFound "Property"), st)
  | some p => (.ok p, st)

/-- Model of `PropertyService.getPropertyById`. -/
def getPropertyById (i : Nat) (st : St) : ServiceResponse PropRow × St :=
  wrap "GET_PROPERTY_ERROR" (getPropertyByIdBody i st)

/-- Body of `PropertyService.getAllProperties`. -/
def getAllPropertiesBody (f : PropertyFilter) (pg : PaginationOptions) (st : St) :
    Except ThrownError (PaginatedResponse PropRow) × St :=
  let all := propsByFilter st.db.props f
  let page := pg.page.getD 1
  let limit := pg.limit.getD 10
  (.ok { data := (all.drop ((page - 1) * limit)).take limit, page := page, limit := limit,
         total := all.length, pages := (all.length + limit - 1) / limit }, st)

/-- Model of `PropertyService.getAllProperties`. -/
def getAllProperties (f : PropertyFilter) (pg : PaginationOptions) (st : St) :
    ServiceResponse (PaginatedResponse PropRow) × St :=
  wrap "GET_ALL_PROPERTIES_ERROR" (getAllPropertiesBody f pg st)

/-- Body of `PropertyService.updateProperty`. -/
def updatePropertyBody (regexOk : String → Bool) (i : Nat) (data : UpdatePropertyDto)
    (st : St) : Except ThrownError PropRow × St :=
  match findPropById st.db.props i with
  | none => (.error (.notFound "Property"), st)
  | some ex =>
    match (if strTruthy data.name || strTruthy data.type then
             match findPropByNameAndTypeExcludingId st.db.props
                 (strOr data.name ex.name) (strOr data.type ex.type) i with
             | some _ => Except.error (ThrownError.uniqueConstraint "Property"
                 (strOr data.name ex.name ++ ":" ++ strOr data.type ex.type))
             | none => Except.ok ()
           else Except.ok ()) with
    | .error e => (.error e, st)
    | .ok _ =>
      match (match data.validation_rules with
             | some r => validatePropertyRules regexOk r (strOr data.type ex.type)
             | none => Except.ok ()) with
      | .error e => (.error e, st)
      | .ok _ =>
        let st' := { st with db := { st.db with props := (st.db.props.map fun p =>
            if p.id == i then
              { p with name := data.name.getD p.name, type := data.type.getD p.type,
                       description := data.description.getD p.description,
                       validation_rules :=
                         (match data.validation_rules with
                          | some r => some r
                          | none => p.validation_rules) }
            else p) } }
        match findPropById st'.db.props i with
        | some r => (.ok r, st')
        | none => (.ok ex, st')

/-- Model of `PropertyService.updateProperty`. -/
def updateProperty (regexOk : String → Bool) (i : Nat) (data : UpdatePropertyDto) (st : St) :
    ServiceResponse PropRow × St :=
  wrap "UPDATE_PROPERTY_ERROR" (updatePropertyBody regexOk i data st)

/-- Model of `BaseRepository.softDelete` on `properties`. -/
def softDeleteProps (props : List PropRow) (i : Nat) (now : Nat) : List PropRow :=
  props.map fun p =>
    if p.id == i then { p with is_deleted := true, deleted_at := some now } else p

/-- Body of `PropertyService.deleteProperty`. -/
def deletePropertyBody (i : Nat) (st : St) : Except ThrownError Unit × St :=
  match findPropById st.db.props i with
  | none => (.error (.notFound "Property"), st)
  | some _ =>
    (.ok (), { st with db := { st.db with props := softDeleteProps st.db.props i st.now } })

/-- Model of `PropertyService.deleteProperty`. -/
def deleteProperty (i : Nat) (st : St) : ServiceResponse Unit × St :=
  wrap "DELETE_PROPERTY_ERROR" (deletePropertyBody i st)

/-! ## Shared helper lemmas -/

/-- A service call is total at its interface: it returns either a success or a
structured failure carrying the method's error code. -/
def totalWith {α : Type} (r : ServiceResponse α × St) (code : String) : Prop :=
  (∃ d s, r = (ServiceResponse.ok d, s)) ∨ (∃ m s, r = (ServiceResponse.err code m, s))

theorem wrap_totalWith {α : Type} (code : String) (r : Except ThrownError α × St) :
    totalWith (wrap code r) code := by
  rcases r with ⟨res, s⟩
  cases res with
  | ok a => exact Or.inl ⟨a, s, rfl⟩
  | error e => exact Or.inr ⟨e.message, s, rfl⟩

theorem ruleFieldCheck_error_validation (v : Option JVal) (f : JVal → Bool) (msg : String)
    (e : ThrownError) (h : ruleFieldCheck v f msg = .error e) : ∃ m, e = .validation m := by
  unfold ruleFieldCheck at h
  split at h
  · split at h
    · exact ⟨msg, by injection h with h2; exact h2.symm⟩
    · exact absurd h (by simp)
  · exact absurd h (by simp)

theorem ruleFieldCheck_bad (v : JVal) (f : JVal → Bool) (msg : String)
    (hv : v.truthy = true) (hn : f v = false) :
    ruleFieldCheck (some v) f msg = .error (.validation msg) := by
  simp [ruleFieldCheck, hv, hn]

theorem andThenCheck_error_left (a b : Except ThrownError Unit) (e : ThrownError)
    (h : a = .error e) : andThenCheck a b = .error e := by
  subst h; rfl

theorem andThenCheck_ok_left (a b : Except ThrownError Unit) (h : a = .ok ()) :
    andThenCheck a b = b := by
  subst h; rfl

theorem andThenCheck_error_validation (a b : Except ThrownError Unit)
    (ha : ∀ e, a = .error e → ∃ m, e = ThrownError.validation m)
    (hb : ∀ e, b = .error e → ∃ m, e = ThrownError.validation m)
    (e : ThrownError) (h : andThenCheck a b = .error e) : ∃ m, e = ThrownError.validation m := by
  cases a with
  | error e0 =>
    unfold andThenCheck at h
    exact (by injection h with h2 : e0 = e) ▸ ha e0 rfl
  | ok u => exact hb e ((andThenCheck_ok_left _ b rfl) ▸ h)

theorem regexCompileCheck_error_validation (regexOk : String → Bool) (r : Rules)
    (e : ThrownError) (h : regexCompileCheck regexOk r = .error e) :
    ∃ m, e = ThrownError.validation m := by
  unfold regexCompileCheck at h
  split at h
  · split at h
    · exact ⟨_, by injection h with h2; exact h2.symm⟩
    · exact absurd h (by simp)
  · exact absurd h (by simp)

theorem typeChecksFor_error_validation (r : Rules) (ty : String) (e : ThrownError)
    (h : typeChecksFor r ty = .error e) : ∃ m, e = ThrownError.validation m := by
  unfold typeChecksFor at h
  split at h
  · exact andThenCheck_error_validation _ _
      (fun e' => ruleFieldCheck_error_validation _ _ _ e')
      (andThenCheck_error_validation _ _
        (fun e' => ruleFieldCheck_error_validation _ _ _ e')
        (fun e' => ruleFieldCheck_error_validation _ _ _ e')) e h
  · split at h
    · exact andThenCheck_error_validation _ _
        (fun e' => ruleFieldCheck_error_validation _ _ _ e')
        (fun e' => ruleFieldCheck_error_validation _ _ _ e') e h
    · split at h
      · exact ruleFieldCheck_error_validation _ _ _ e h
      · exact absurd h (by simp)

theorem validatePropertyRules_error_validation (regexOk : String → Bool) (r : Rules)
    (ty : String) (e : ThrownError)
    (h : validatePropertyRules regexOk r ty = .error e) : ∃ m, e = .validation m := by
  unfold validatePropertyRules at h
  exact andThenCheck_error_validation _ _
    (fun e' => typeChecksFor_error_validation r ty e')
    (fun e' => regexCompileCheck_error_validation regexOk r e') e h

/-! ## Fixtures for witnesses and counterexamples -/

/-- An empty store. -/
def emptyDb : DB :=
  { plans := [], events := [], props := [], planEvents := [], eventProps := [], nextId := 1 }

/-- A stored event `Login`/`track` with description `A`. -/
def loginEventRow : EventRow :=
  { id := 1, name := "Login", type := "track", description := "A",
    create_time := 0, update_time := 0, is_deleted := false, deleted_at := none }

/-- State holding only `loginEventRow`. -/
def loginSt : St :=
  { db := { emptyDb with events := [loginEventRow], nextId := 2 }, faults := [], now := 7 }

/-! ## Claim theorems -/

/-- C5: for every candidate event definition whose (name, type) matches a stored
non-deleted Event (`findByNameAndType`, which filters `is_deleted: false`):
if the descriptions are exactly string-equal, `findOrCreateEvent` returns the
stored entity unchanged and performs no write (the state is returned intact);
if they differ, it fails with a Conflict whose message names the event's name,
its type, and "different description", and no row is inserted. -/
theorem event_resolver_reuse_or_conflict (d : CreateEventDto) (st : St) (e : EventRow)
    (hfind : findEventByNameAndType st.db.events d.name d.type = some e) :
    (e.description = d.description → findOrCreateEvent d st = (.ok e, st)) ∧
    (e.description ≠ d.description →
      findOrCreateEvent d st = (.error (.conflict (eventConflictMsg d.name d.type)), st)) := by
  unfold findOrCreateEvent
  rw [hfind]
  constructor
  · intro h
    simp [h]
  · intro h
    simp [h]

/-- Witness for C5: with the stored event `Login`/`track`/`"A"`, a matching
candidate is reused with no write, and a candidate with description `"B"`
raises the Conflict naming the event, the type and "different description". -/
theorem event_resolver_reuse_or_conflict_witness :
    findOrCreateEvent
        { name := "Login", type := "track", description := "A", create_time := none }
        loginSt = (.ok loginEventRow, loginSt) ∧
    findOrCreateEvent
        { name := "Login", type := "track", description := "B", create_time := none }
        loginSt =
      (.error (.conflict (eventConflictMsg "Login" "track")), loginSt) :=
  ⟨(event_resolver_reuse_or_conflict
      { name := "Login", type := "track", description := "A", create_time := none }
      loginSt loginEventRow rfl).1 rfl,
   (event_resolver_reuse_or_conflict
      { name := "Login", type := "track", description := "B", create_time := none }
      loginSt loginEventRow rfl).2 (by decide)⟩

/-- C10: `deleteTrackingPlan` on an existing (non-deleted) plan succeeds and
modifies only that plan's row, setting `is_deleted := true` and
`deleted_at := now`; the `events`, `properties`, `tracking_plan_events` and
`event_properties` tables are returned byte-for-byte unchanged, and every other
plan row is preserved as well. -/
theorem delete_plan_only_touches_plan_row (i : Nat) (st : St) (p : PlanRow)
    (hfind : findPlanById st.db.plans i = some p) :
    (deleteTrackingPlan i st).1 = .ok () ∧
    (deleteTrackingPlan i st).2.db.plans =
      (st.db.plans.map fun q =>
        if q.id == i then { q with is_deleted := true, deleted_at := some st.now } else q) ∧
    (deleteTrackingPlan i st).2.db.events = st.db.events ∧
    (deleteTrackingPlan i st).2.db.props = st.db.props ∧
    (deleteTrackingPlan i st).2.db.planEvents = st.db.planEvents ∧
    (deleteTrackingPlan i st).2.db.eventProps = st.db.eventProps ∧
    (∀ q ∈ st.db.plans, q.id ≠ i → q ∈ (deleteTrackingPlan i st).2.db.plans) := by
  have hbody : deleteTrackingPlanBody i st =
      (.ok (), { st with db := { st.db with plans := softDeletePlans st.db.plans i st.now } }) := by
    unfold deleteTrackingPlanBody
    rw [hfind]
  unfold deleteTrackingPlan
  rw [hbody]
  refine ⟨rfl, rfl, rfl, rfl, rfl, rfl, ?_⟩
  intro q hq hne
  have heq : (if q.id == i then
      { q with is_deleted := true, deleted_at := some st.now } else q) = q := by
    simp [hne]
  exact heq ▸ List.mem_map_of_mem _ hq

/-- An existing plan row used by the delete witness. -/
def wPlanRow : PlanRow :=
  { id := 1, name := "Plan", description := "d", create_time := 0, update_time := 0,
    is_deleted := false, deleted_at := none }

/-- State holding only `wPlanRow`. -/
def wPlanSt : St :=
  { db := { emptyDb with plans := [wPlanRow], nextId := 2 }, faults := [], now := 9 }

/-- Witness for C10: deleting the only plan of a small store succeeds and
leaves the event table unchanged. -/
theorem delete_plan_only_touches_plan_row_witness :
    (deleteTrackingPlan 1 wPlanSt).1 = .ok () ∧
    (deleteTrackingPlan 1 wPlanSt).2.db.events = [] :=
  ⟨(delete_plan_only_touches_plan_row 1 wPlanSt wPlanRow rfl).1,
   ((delete_plan_only_touches_plan_row 1 wPlanSt wPlanRow rfl).2.2.1).trans rfl⟩

/-- C9: every public service method is total at its interface: for every input
and every store/fault state, the result is either a success or a structured
failure `{success: false, error: {code, message}}` carrying that method's
error code — no exception propagates to the caller. -/
theorem services_total_at_interface (regexOk : String → Bool) :
    (∀ data st, totalWith (createTrackingPlan regexOk data st) "CREATE_TRACKING_PLAN_ERROR") ∧
    (∀ i st, totalWith (getTrackingPlanById i st) "GET_TRACKING_PLAN_ERROR") ∧
    (∀ f pg st, totalWith (getAllTrackingPlans f pg st) "GET_ALL_TRACKING_PLANS_ERROR") ∧
    (∀ i data st, totalWith (updateTrackingPlan regexOk i data st) "UPDATE_TRACKING_PLAN_ERROR") ∧
    (∀ i st, totalWith (deleteTrackingPlan i st) "DELETE_TRACKING_PLAN_ERROR") ∧
    (∀ d st, totalWith (createEvent d st) "CREATE_EVENT_ERROR") ∧
    (∀ i st, totalWith (getEventById i st) "GET_EVENT_ERROR") ∧
    (∀ f pg st, totalWith (getAllEvents f pg st) "GET_ALL_EVENTS_ERROR") ∧
    (∀ i d st, totalWith (updateEvent i d st) "UPDATE_EVENT_ERROR") ∧
    (∀ i st, totalWith (deleteEvent i st) "DELETE_EVENT_ERROR") ∧
    (∀ d st, totalWith (createProperty regexOk d st) "CREATE_PROPERTY_ERROR") ∧
    (∀ i st, totalWith (getPropertyById i st) "GET_PROPERTY_ERROR") ∧
    (∀ f pg st, totalWith (getAllProperties f pg st) "GET_ALL_PROPERTIES_ERROR") ∧
    (∀ i d st, totalWith (updateProperty regexOk i d st) "UPDATE_PROPERTY_ERROR") ∧
    (∀ i st, totalWith (deleteProperty i st) "DELETE_PROPERTY_ERROR") := by
  refine ⟨?_, ?_, ?_, ?_, ?_, ?_, ?_, ?_, ?_, ?_, ?_, ?_, ?_, ?_, ?_⟩
  · intro data st
    unfold createTrackingPlan
    rcases h : createTrackingPlanBody regexOk data (startTx st) with ⟨res, cs⟩
    cases res with
    | ok a => exact Or.inl ⟨a, commitTx cs, rfl⟩
    | error e => exact Or.inr ⟨e.message, rollbackTx cs, rfl⟩
  · exact fun i st => wrap_totalWith _ _
  · exact fun f pg st => wrap_totalWith _ _
  · intro i data st
    unfold updateTrackingPlan
    rcases h : updateTrackingPlanBody regexOk i data (startTx st) with ⟨res, cs⟩
    cases res with
    | ok a => exact Or.inl ⟨mapPlanToResponse (commitTx cs).db i, commitTx cs, rfl⟩
    | error e => exact Or.inr ⟨e.message, rollbackTx cs, rfl⟩
  · exact fun i st => wrap_totalWith _ _
  · exact fun d st => wrap_totalWith _ _
  · exact fun i st => wrap_totalWith _ _
  · exact fun f pg st => wrap_totalWith _ _
  · exact fun i d st => wrap_totalWith _ _
  · exact fun i st => wrap_totalWith _ _
  · exact fun d st => wrap_totalWith _ _
  · exact fun i st => wrap_totalWith _ _
  · exact fun f pg st => wrap_totalWith _ _
  · exact fun i d st => wrap_totalWith _ _
  · exact fun i st => wrap_totalWith _ _

/-- C8 (amended): when the store raises a failure at the plan insert of
`createTrackingPlan` — in particular a duplicate-key violation — the service
catches it and surfaces it with the one generic code
`CREATE_TRACKING_PLAN_ERROR` and the database error's message, exactly as it
does for any other storage failure: it is not specially classified as a
conflict.  (The `f.dup` flag is arbitrary here: a duplicate-key failure and a
generic failure receive the same classification.) -/
theorem create_plan_insert_fault_surfaced_generic (regexOk : String → Bool)
    (data : CreateTrackingPlanDto) (st : St) (f : StorageFault)
    (rest : List (Option StorageFault))
    (hf : st.faults = some f :: rest)
    (hname : findPlanByName st.db.plans data.name = none) :
    createTrackingPlan regexOk data st =
      (.err "CREATE_TRACKING_PLAN_ERROR" f.msg, { st with faults := rest }) := by
  have hpop : popFault st = (some f, { st with faults := rest }) := by
    unfold popFault
    rw [hf]
  have hbody : createTrackingPlanBody regexOk data (startTx st) =
      (.error (.storage f.msg f.dup),
        { startTx st with st := { st with faults := rest } }) := by
    unfold createTrackingPlanBody
    have : (startTx st).st = st := rfl
    rw [this, hname]
    unfold insertPlanRow
    rw [hpop]
  unfold createTrackingPlan
  rw [hbody]
  rfl

/-- Witness for C8's amended theorem: a duplicate-key violation injected at the
plan insert is returned with the generic code and the database message. -/
theorem create_plan_insert_fault_surfaced_generic_witness :
    createTrackingPlan (fun _ => true)
        { name := "X", description := "d", events := [], create_time := none }
        { db := emptyDb,
          faults := [some { msg := "duplicate key value violates unique constraint", dup := true }],
          now := 0 } =
      (.err "CREATE_TRACKING_PLAN_ERROR" "duplicate key value violates unique constraint",
        { db := emptyDb, faults := [], now := 0 }) :=
  create_plan_insert_fault_surfaced_generic (fun _ => true)
    { name := "X", description := "d", events := [], create_time := none }
    { db := emptyDb,
      faults := [some { msg := "duplicate key value violates unique constraint", dup := true }],
      now := 0 }
    { msg := "duplicate key value violates unique constraint", dup := true } [] rfl rfl

/-- Counterexample for C8 as stated: a duplicate-key insert failure and a
plainly generic storage failure produce failure results with the *identical*
error code `CREATE_TRACKING_PLAN_ERROR`; the duplicate-key case is not
classified as a conflict (nothing in the result distinguishes it from the
generic server failure). -/
theorem dup_key_not_classified_as_conflict :
    (createTrackingPlan (fun _ => true)
        { name := "X", description := "d", events := [], create_time := none }
        { db := emptyDb,
          faults := [some { msg := "duplicate key value violates unique constraint", dup := true }],
          now := 0 }).1 =
      .err "CREATE_TRACKING_PLAN_ERROR" "duplicate key value violates unique constraint" ∧
    (createTrackingPlan (fun _ => true)
        { name := "X", description := "d", events := [], create_time := none }
        { db := emptyDb,
          faults := [some { msg := "connection lost", dup := false }],
          now := 0 }).1 =
      .err "CREATE_TRACKING_PLAN_ERROR" "connection lost" :=
  ⟨rfl, rfl⟩

theorem findOrCreateProperty_found (regexOk : String → Bool) (d : CreatePropertyDto)
    (st : St) (p : PropRow)
    (hfind : findPropByNameAndType st.db.props d.name d.type = some p) :
    findOrCreateProperty regexOk d st =
      (if (!(p.description == d.description)) = true then
        (.error (.conflict (propConflictDescMsg d.name d.type)), st)
      else if (!(rulesStr p.validation_rules == rulesStr d.validation_rules)) = true then
        (.error (.conflict (propConflictRulesMsg d.name d.type)), st)
      else (.ok p, st)) := by
  unfold findOrCreateProperty
  rw [hfind]

/-- C3 (amended): with a stored non-deleted Property of the same (name, type)
and exactly equal description, a candidate whose rule set is absent is reused
with no Conflict and no insert when the stored rule set is database null (both
normalize to the canonical `null`); but a stored *empty-object* rule set is not
normalized (it is JS-truthy, so `|| null` leaves it as `{}`) and raises a
"different validation rules" Conflict instead. -/
theorem prop_resolver_null_absent (regexOk : String → Bool) (d : CreatePropertyDto) (st : St)
    (p : PropRow)
    (hfind : findPropByNameAndType st.db.props d.name d.type = some p)
    (hdesc : p.description = d.description) :
    (p.validation_rules = none → d.validation_rules = none →
      findOrCreateProperty regexOk d st = (.ok p, st)) ∧
    (p.validation_rules = some [] → d.validation_rules = none →
      findOrCreateProperty regexOk d st =
        (.error (.conflict (propConflictRulesMsg d.name d.type)), st)) := by
  rw [findOrCreateProperty_found regexOk d st p hfind]
  constructor
  · intro h1 h2
    simp [hdesc, h1, h2]
  · intro h1 h2
    rw [h1, h2]
    have hne : (rulesStr (some ([] : Rules)) == rulesStr (none : Option Rules)) = false := by
      decide
    simp [hdesc, hne]

/-- A stored property whose rule-set column is database null. -/
def nullRulesPropRow : PropRow :=
  { id := 1, name := "product_id", type := "string", description := "D",
    validation_rules := none, create_time := 0, update_time := 0,
    is_deleted := false, deleted_at := none }

/-- State holding only `nullRulesPropRow`. -/
def nullRulesSt : St :=
  { db := { emptyDb with props := [nullRulesPropRow], nextId := 2 }, faults := [], now := 7 }

/-- A stored property whose rule-set column is the empty JSON object. -/
def emptyRulesPropRow : PropRow :=
  { nullRulesPropRow with validation_rules := some [] }

/-- State holding only `emptyRulesPropRow`. -/
def emptyRulesSt : St :=
  { db := { emptyDb with props := [emptyRulesPropRow], nextId := 2 }, faults := [], now := 7 }

/-- A candidate for the same identity whose rule set is absent (`undefined`). -/
def absentRulesDto : CreatePropertyDto :=
  { name := "product_id", type := "string", description := "D",
    validation_rules := none, create_time := none }

/-- Witness for C3's amended theorem: absent candidate vs stored null reuses
the stored row with no Conflict and no state change. -/
theorem prop_resolver_null_absent_witness :
    findOrCreateProperty (fun _ => true) absentRulesDto nullRulesSt =
      (.ok nullRulesPropRow, nullRulesSt) :=
  (prop_resolver_null_absent (fun _ => true) absentRulesDto nullRulesSt
    nullRulesPropRow rfl rfl).1 rfl rfl

/-- Counterexample for C3 as stated: the claim also covers a stored *empty*
rule set, but an absent candidate against a stored `{}` raises a
"different validation rules" Conflict instead of being reused. -/
theorem stored_empty_rules_conflict_with_absent :
    findOrCreateProperty (fun _ => true) absentRulesDto emptyRulesSt =
      (.error (.conflict (propConflictRulesMsg "product_id" "string")), emptyRulesSt) := rfl

/-- C4 (amended): the validation-rule comparator of `findOrCreateProperty` is
equality of the `JSON.stringify` serializations of the normalized rule sets:
equal serializations (same keys, same values, in the same order) are judged
equal and the stored row is reused with no write; different serializations —
which includes the same key/value pairs in a different key order — raise a
"different validation rules" Conflict. -/
theorem prop_rules_compared_by_serialization (regexOk : String → Bool)
    (d : CreatePropertyDto) (st : St) (p : PropRow)
    (hfind : findPropByNameAndType st.db.props d.name d.type = some p)
    (hdesc : p.description = d.description) :
    (rulesStr p.validation_rules = rulesStr d.validation_rules →
      findOrCreateProperty regexOk d st = (.ok p, st)) ∧
    (rulesStr p.validation_rules ≠ rulesStr d.validation_rules →
      findOrCreateProperty regexOk d st =
        (.error (.conflict (propConflictRulesMsg d.name d.type)), st)) := by
  rw [findOrCreateProperty_found regexOk d st p hfind]
  constructor
  · intro h
    simp [hdesc, h]
  · intro h
    simp [hdesc, beq_iff_eq, h]

/-- A stored property with rules `{"min":1,"max":50}` (keys in this order). -/
def orderedRulesPropRow : PropRow :=
  { nullRulesPropRow with
    validation_rules := some [("min", JVal.jnum 1), ("max", JVal.jnum 50)] }

/-- State holding only `orderedRulesPropRow`. -/
def orderedRulesSt : St :=
  { db := { emptyDb with props := [orderedRulesPropRow], nextId := 2 }, faults := [], now := 7 }

/-- A candidate with the identical rules in the identical key order. -/
def sameOrderRulesDto : CreatePropertyDto :=
  { absentRulesDto with
    validation_rules := some [("min", JVal.jnum 1), ("max", JVal.jnum 50)] }

/-- A candidate with the same keys bound to the same values, keys reversed. -/
def reorderedRulesDto : CreatePropertyDto :=
  { absentRulesDto with
    validation_rules := some [("max", JVal.jnum 50), ("min", JVal.jnum 1)] }

/-- Witness for C4's amended theorem: identical serialization is reused;
reversed key order is rejected as a rules Conflict. -/
theorem prop_rules_compared_by_serialization_witness :
    findOrCreateProperty (fun _ => true) sameOrderRulesDto orderedRulesSt =
      (.ok orderedRulesPropRow, orderedRulesSt) ∧
    findOrCreateProperty (fun _ => true) reorderedRulesDto orderedRulesSt =
      (.error (.conflict (propConflictRulesMsg "product_id" "string")), orderedRulesSt) :=
  ⟨(prop_rules_compared_by_serialization (fun _ => true) sameOrderRulesDto orderedRulesSt
      orderedRulesPropRow rfl rfl).1 rfl,
   (prop_rules_compared_by_serialization (fun _ => true) reorderedRulesDto orderedRulesSt
      orderedRulesPropRow rfl rfl).2 (by decide)⟩

/-- Counterexample for C4 as stated: `{"min":1,"max":50}` and
`{"max":50,"min":1}` contain the same keys bound to the same values, yet the
comparator judges them different — key order does affect the result, and a
"different validation rules" Conflict is raised. -/
theorem key_order_affects_rule_comparison :
    findOrCreateProperty (fun _ => true) reorderedRulesDto orderedRulesSt =
      (.error (.conflict (propConflictRulesMsg "product_id" "string")), orderedRulesSt) ∧
    (reorderedRulesDto.validation_rules.getD []).Perm
      (orderedRulesPropRow.validation_rules.getD []) :=
  ⟨rfl, by decide⟩

/-! ### C7: validation of a new property's rule set -/

theorem typeChecksFor_min_max_bad (r : Rules) (ty : String)
    (hty : ty = "string" ∨ ty = "number")
    (hbad : (∃ v, getField r "min" = some v ∧ v.truthy = true ∧ v.isNum = false) ∨
            (∃ v, getField r "max" = some v ∧ v.truthy = true ∧ v.isNum = false)) :
    ∃ m, typeChecksFor r ty = .error (.validation m) := by
  rcases hty with hty | hty <;> subst hty
  · have hre : typeChecksFor r "string" =
        andThenCheck
          (ruleFieldCheck (getField r "min") JVal.isNum
            "String property min length must be a number")
          (andThenCheck
            (ruleFieldCheck (getField r "max") JVal.isNum
              "String property max length must be a number")
            (ruleFieldCheck (getField r "regex") JVal.isStr
              "String property regex must be a string")) := rfl
    rw [hre]
    rcases hbad with ⟨v, hget, htr, hnum⟩ | ⟨v, hget, htr, hnum⟩
    · exact ⟨_, andThenCheck_error_left _ _ _
        (by rw [hget]; exact ruleFieldCheck_bad v _ _ htr hnum)⟩
    · rcases hmin : ruleFieldCheck (getField r "min") JVal.isNum
          "String property min length must be a number" with e0 | u
      · obtain ⟨m0, hm0⟩ := ruleFieldCheck_error_validation _ _ _ _ hmin
        exact ⟨m0, andThenCheck_error_left _ _ _ (by rw [hm0])⟩
      · cases u
        simp only [andThenCheck]
        exact ⟨_, andThenCheck_error_left _ _ _
          (by rw [hget]; exact ruleFieldCheck_bad v _ _ htr hnum)⟩
  · have hre : typeChecksFor r "number" =
        andThenCheck
          (ruleFieldCheck (getField r "min") JVal.isNum
            "Number property min value must be a number")
          (ruleFieldCheck (getField r "max") JVal.isNum
            "Number property max value must be a number") := rfl
    rw [hre]
    rcases hbad with ⟨v, hget, htr, hnum⟩ | ⟨v, hget, htr, hnum⟩
    · exact ⟨_, andThenCheck_error_left _ _ _
        (by rw [hget]; exact ruleFieldCheck_bad v _ _ htr hnum)⟩
    · rcases hmin : ruleFieldCheck (getField r "min") JVal.isNum
          "Number property min value must be a number" with e0 | u
      · obtain ⟨m0, hm0⟩ := ruleFieldCheck_error_validation _ _ _ _ hmin
        exact ⟨m0, andThenCheck_error_left _ _ _ (by rw [hm0])⟩
      · cases u
        simp only [andThenCheck]
        exact ⟨_, by rw [hget]; exact ruleFieldCheck_bad v _ _ htr hnum⟩

theorem validate_min_max_bad (regexOk : String → Bool) (r : Rules) (ty : String)
    (hty : ty = "string" ∨ ty = "number")
    (hbad : (∃ v, getField r "min" = some v ∧ v.truthy = true ∧ v.isNum = false) ∨
            (∃ v, getField r "max" = some v ∧ v.truthy = true ∧ v.isNum = false)) :
    ∃ m, validatePropertyRules regexOk r ty = .error (.validation m) := by
  obtain ⟨m, hm⟩ := typeChecksFor_min_max_bad r ty hty hbad
  exact ⟨m, andThenCheck_error_left _ _ _ hm⟩

theorem validate_regex_bad (regexOk : String → Bool) (r : Rules) (ty : String)
    (hbad : ∃ v, getField r "regex" = some v ∧ v.truthy = true ∧
      regexOk v.jsToString = false) :
    ∃ m, validatePropertyRules regexOk r ty = .error (.validation m) := by
  obtain ⟨v, hget, htr, hro⟩ := hbad
  rcases htc : typeChecksFor r ty with e0 | u
  · obtain ⟨m0, hm0⟩ := typeChecksFor_error_validation r ty e0 htc
    subst hm0
    exact ⟨m0, andThenCheck_error_left _ _ _ htc⟩
  · cases u
    have hchain : validatePropertyRules regexOk r ty = regexCompileCheck regexOk r := by
      unfold validatePropertyRules
      rw [andThenCheck_ok_left _ _ htc]
    refine ⟨"Invalid regex pattern in validation rules", ?_⟩
    rw [hchain]
    unfold regexCompileCheck
    rw [hget]
    simp [htr, hro]

/-- C7 (amended): when `findOrCreateProperty` is about to create a new Property
(no stored row with the same identity) and the candidate carries a rule set:
for declared type "string" or "number", a present *truthy* `min` or `max`
value that is not numeric makes the whole resolution fail with a Validation
error and no row is inserted (the state is unchanged); and for any declared
type, a present truthy `regex` whose pattern does not compile likewise fails
with a Validation error and no insert.  (JS-falsy values — e.g. the empty
string — are skipped by the source's `if (rules.min && ...)` truthiness
guard; that is what the counterexample exploits.) -/
theorem new_property_rule_validation (regexOk : String → Bool) (d : CreatePropertyDto)
    (st : St) (r : Rules)
    (hfind : findPropByNameAndType st.db.props d.name d.type = none)
    (hrules : d.validation_rules = some r) :
    ((d.type = "string" ∨ d.type = "number") →
      ((∃ v, getField r "min" = some v ∧ v.truthy = true ∧ v.isNum = false) ∨
       (∃ v, getField r "max" = some v ∧ v.truthy = true ∧ v.isNum = false)) →
      ∃ m, findOrCreateProperty regexOk d st = (.error (.validation m), st)) ∧
    ((∃ v, getField r "regex" = some v ∧ v.truthy = true ∧
        regexOk v.jsToString = false) →
      ∃ m, findOrCreateProperty regexOk d st = (.error (.validation m), st)) := by
  have hgoal : findOrCreateProperty regexOk d st =
      (match validatePropertyRules regexOk r d.type with
       | .error e => (.error e, st)
       | .ok _ => insertPropRow d st) := by
    unfold findOrCreateProperty
    rw [hfind, hrules]
  constructor
  · intro hty hbad
    obtain ⟨m, hm⟩ := validate_min_max_bad regexOk r d.type hty hbad
    exact ⟨m, by rw [hgoal, hm]⟩
  · intro hbad
    obtain ⟨m, hm⟩ := validate_regex_bad regexOk r d.type hbad
    exact ⟨m, by rw [hgoal, hm]⟩

/-- A fresh state with no stored rows. -/
def plainSt : St := { db := emptyDb, faults := [], now := 7 }

/-- A new string property with a truthy non-numeric `min`. -/
def invalidMinDto : CreatePropertyDto :=
  { name := "p", type := "string", description := "d",
    validation_rules := some [("min", JVal.jstr "invalid")], create_time := none }

/-- A new property with a regex that does not compile (oracle says no). -/
def badRegexDto : CreatePropertyDto :=
  { name := "p", type := "number", description := "d",
    validation_rules := some [("regex", JVal.jstr "(")], create_time := none }

/-- Witness for C7's amended theorem: `min: "invalid"` on a new string
property, and a non-compiling regex on a new property, both fail with a
Validation error and leave the state unchanged. -/
theorem new_property_rule_validation_witness :
    (∃ m, findOrCreateProperty (fun _ => true) invalidMinDto plainSt =
      (.error (.validation m), plainSt)) ∧
    (∃ m, findOrCreateProperty (fun _ => false) badRegexDto plainSt =
      (.error (.validation m), plainSt)) :=
  ⟨(new_property_rule_validation (fun _ => true) invalidMinDto plainSt
      [("min", JVal.jstr "invalid")] rfl rfl).1 (Or.inl rfl)
      (Or.inl ⟨JVal.jstr "invalid", rfl, rfl, rfl⟩),
   (new_property_rule_validation (fun _ => false) badRegexDto plainSt
      [("regex", JVal.jstr "(")] rfl rfl).2 ⟨JVal.jstr "(", rfl, rfl, rfl⟩⟩

/-- A new string property with `min: ""` — present and non-numeric, but
JS-falsy. -/
def emptyStrMinDto : CreatePropertyDto :=
  { name := "p", type := "string", description := "d",
    validation_rules := some [("min", JVal.jstr "")], create_time := none }

/-- The row the source inserts for `emptyStrMinDto`. -/
def emptyStrMinRow : PropRow :=
  { id := 1, name := "p", type := "string", description := "d",
    validation_rules := some [("min", JVal.jstr "")], create_time := 7, update_time := 7,
    is_deleted := false, deleted_at := none }

/-- Counterexample for C7 as stated: `min: ""` is present and not numeric, yet
no Validation error is raised and the property *is* inserted — the truthiness
guard `if (rules.min && ...)` skips JS-falsy values. -/
theorem falsy_nonnumeric_min_not_rejected :
    findOrCreateProperty (fun _ => true) emptyStrMinDto plainSt =
      (.ok emptyStrMinRow,
        { db := { emptyDb with props := [emptyStrMinRow], nextId := 2 },
          faults := [], now := 7 }) := rfl

/-! ### C1: rollback after a failed create -/

/-- A plan submission whose event conflicts with the stored `Login` event. -/
def conflictingLoginDto : TrackingPlanEventDto :=
  { name := "Login", type := "track", description := "B", properties := [],
    additionalProperties := false }

/-- The create request of the C1 scenario. -/
def c1Req : CreateTrackingPlanDto :=
  { name := "P", description := "D", events := [conflictingLoginDto], create_time := none }

/-- C1 (code bug): the create of plan "P" fails with the expected Conflict
("different description"), and the transaction rollback does discard the
buffered link rows — but the plan row inserted through the `AppDataSource`
repository has already auto-committed outside the query-runner transaction, so
the persistent state after the failure does *not* equal the state before the
call: a plan row `P` survives the failed create. -/
theorem create_rollback_leaves_plan_row :
    (createTrackingPlan (fun _ => true) c1Req loginSt).1 =
      .err "CREATE_TRACKING_PLAN_ERROR" (eventConflictMsg "Login" "track") ∧
    (createTrackingPlan (fun _ => true) c1Req loginSt).2 ≠ loginSt ∧
    (createTrackingPlan (fun _ => true) c1Req loginSt).2.db.plans =
      [{ id := 2, name := "P", description := "D", create_time := 7, update_time := 7,
         is_deleted := false, deleted_at := none }] ∧
    loginSt.db.plans = [] ∧
    (createTrackingPlan (fun _ => true) c1Req loginSt).2.db.planEvents = [] := by
  refine ⟨rfl, ?_, rfl, rfl, rfl⟩
  decide

/-! ### Frame lemmas for the orchestrated loops -/

theorem popFault_parts (st : St) (x : Option StorageFault) (st' : St)
    (h : popFault st = (x, st')) : st'.db = st.db ∧ st'.now = st.now := by
  unfold popFault at h
  split at h <;>
  · injection h with h1 h2
    subst h2
    exact ⟨rfl, rfl⟩

theorem insertEventRow_frame (d : CreateEventDto) (st : St) (r : Except ThrownError EventRow)
    (st' : St) (h : insertEventRow d st = (r, st')) :
    st'.db.plans = st.db.plans ∧ st'.db.props = st.db.props ∧
    st'.db.planEvents = st.db.planEvents ∧ st'.db.eventProps = st.db.eventProps ∧
    st'.now = st.now := by
  unfold insertEventRow at h
  split at h
  case _ f st1 heq =>
    obtain ⟨hdb, hnow⟩ := popFault_parts st (some f) st1 heq
    injection h with h1 h2
    subst h2
    exact ⟨by rw [hdb], by rw [hdb], by rw [hdb], by rw [hdb], hnow⟩
  case _ st1 heq =>
    obtain ⟨hdb, hnow⟩ := popFault_parts st none st1 heq
    injection h with h1 h2
    subst h2
    exact ⟨by rw [hdb], by rw [hdb], by rw [hdb], by rw [hdb], hnow⟩

theorem insertPlanRow_frame (n dsc : String) (ct : Option Nat) (st : St)
    (r : Except ThrownError PlanRow) (st' : St) (h : insertPlanRow n dsc ct st = (r, st')) :
    st'.db.props = st.db.props ∧ st'.db.events = st.db.events ∧
    st'.db.planEvents = st.db.planEvents ∧ st'.db.eventProps = st.db.eventProps ∧
    st'.now = st.now := by
  unfold insertPlanRow at h
  split at h
  case _ f st1 heq =>
    obtain ⟨hdb, hnow⟩ := popFault_parts st (some f) st1 heq
    injection h with h1 h2
    subst h2
    exact ⟨by rw [hdb], by rw [hdb], by rw [hdb], by rw [hdb], hnow⟩
  case _ st1 heq =>
    obtain ⟨hdb, hnow⟩ := popFault_parts st none st1 heq
    injection h with h1 h2
    subst h2
    exact ⟨by rw [hdb], by rw [hdb], by rw [hdb], by rw [hdb], hnow⟩

theorem findOrCreateEvent_frame (d : CreateEventDto) (st : St)
    (r : Except ThrownError EventRow) (st' : St) (h : findOrCreateEvent d st = (r, st')) :
    st'.db.plans = st.db.plans ∧ st'.db.props = st.db.props ∧
    st'.db.planEvents = st.db.planEvents ∧ st'.db.eventProps = st.db.eventProps ∧
    st'.now = st.now := by
  unfold findOrCreateEvent at h
  split at h
  · split at h <;>
    · injection h with h1 h2
      subst h2
      exact ⟨rfl, rfl, rfl, rfl, rfl⟩
  · exact insertEventRow_frame d st r st' h

theorem insertPropRow_frame (d : CreatePropertyDto) (st : St)
    (r : Except ThrownError PropRow) (st' : St) (h : insertPropRow d st = (r, st')) :
    st'.db.plans = st.db.plans ∧ st'.db.events = st.db.events ∧
    st'.db.planEvents = st.db.planEvents ∧ st'.db.eventProps = st.db.eventProps ∧
    st'.now = st.now := by
  unfold insertPropRow at h
  split at h
  case _ f st1 heq =>
    obtain ⟨hdb, hnow⟩ := popFault_parts st (some f) st1 heq
    injection h with h1 h2
    subst h2
    exact ⟨by rw [hdb], by rw [hdb], by rw [hdb], by rw [hdb], hnow⟩
  case _ st1 heq =>
    obtain ⟨hdb, hnow⟩ := popFault_parts st none st1 heq
    injection h with h1 h2
    subst h2
    exact ⟨by rw [hdb], by rw [hdb], by rw [hdb], by rw [hdb], hnow⟩

theorem findOrCreateProperty_frame (regexOk : String → Bool) (d : CreatePropertyDto)
    (st : St) (r : Except ThrownError PropRow) (st' : St)
    (h : findOrCreateProperty regexOk d st = (r, st')) :
    st'.db.plans = st.db.plans ∧ st'.db.events = st.db.events ∧
    st'.db.planEvents = st.db.planEvents ∧ st'.db.eventProps = st.db.eventProps ∧
    st'.now = st.now := by
  unfold findOrCreateProperty at h
  split at h
  · split at h
    · injection h with h1 h2
      subst h2
      exact ⟨rfl, rfl, rfl, rfl, rfl⟩
    · split at h <;>
      · injection h with h1 h2
        subst h2
        exact ⟨rfl, rfl, rfl, rfl, rfl⟩
  · split at h
    · injection h with h1 h2
      subst h2
      exact ⟨rfl, rfl, rfl, rfl, rfl⟩
    · exact insertPropRow_frame d st r st' h

theorem insertTpeRow_frame (p e : Nat) (a : Bool) (cs : CState)
    (r : Except ThrownError TpeRow) (cs' : CState) (h : insertTpeRow p e a cs = (r, cs')) :
    cs'.st.db.plans = cs.st.db.plans ∧ cs'.st.db.events = cs.st.db.events ∧
    cs'.st.db.props = cs.st.db.props ∧ cs'.st.db.planEvents = cs.st.db.planEvents ∧
    cs'.st.db.eventProps = cs.st.db.eventProps ∧ cs'.st.now = cs.st.now ∧
    cs'.txEP = cs.txEP ∧
    (∃ ext, cs'.txPE = cs.txPE ++ ext ∧
      ∀ q ∈ ext, q.tracking_plan_id = p ∧ q.is_deleted = false) := by
  unfold insertTpeRow at h
  split at h
  case _ f st1 heq =>
    obtain ⟨hdb, hnow⟩ := popFault_parts cs.st (some f) st1 heq
    injection h with h1 h2
    subst h2
    exact ⟨by rw [hdb], by rw [hdb], by rw [hdb], by rw [hdb], by rw [hdb], hnow, rfl,
      [], by simp, by simp⟩
  case _ st1 heq =>
    obtain ⟨hdb, hnow⟩ := popFault_parts cs.st none st1 heq
    injection h with h1 h2
    subst h2
    refine ⟨by rw [hdb], by rw [hdb], by rw [hdb], by rw [hdb], by rw [hdb], hnow, rfl, ?_⟩
    refine ⟨_, rfl, ?_⟩
    intro q hq
    simp only [List.mem_singleton] at hq
    subst hq
    exact ⟨rfl, rfl⟩

theorem insertEpRow_frame (t pi : Nat) (req : Bool) (cs : CState)
    (r : Except ThrownError EpRow) (cs' : CState) (h : insertEpRow t pi req cs = (r, cs')) :
    cs'.st.db.plans = cs.st.db.plans ∧ cs'.st.db.events = cs.st.db.events ∧
    cs'.st.db.props = cs.st.db.props ∧ cs'.st.db.planEvents = cs.st.db.planEvents ∧
    cs'.st.db.eventProps = cs.st.db.eventProps ∧ cs'.st.now = cs.st.now ∧
    cs'.txPE = cs.txPE ∧
    (∃ ext, cs'.txEP = cs.txEP ++ ext) := by
  unfold insertEpRow at h
  split at h
  case _ f st1 heq =>
    obtain ⟨hdb, hnow⟩ := popFault_parts cs.st (some f) st1 heq
    injection h with h1 h2
    subst h2
    exact ⟨by rw [hdb], by rw [hdb], by rw [hdb], by rw [hdb], by rw [hdb], hnow, rfl,
      [], by simp⟩
  case _ st1 heq =>
    obtain ⟨hdb, hnow⟩ := popFault_parts cs.st none st1 heq
    injection h with h1 h2
    subst h2
    exact ⟨by rw [hdb], by rw [hdb], by rw [hdb], by rw [hdb], by rw [hdb], hnow, rfl,
      _, rfl⟩

theorem processPropsUpd_frame (regexOk : String → Bool) (tpeId : Nat)
    (ps : List EventPropertyDto) :
    ∀ cs cs', processPropsUpd regexOk tpeId ps cs = (.ok (), cs') →
      cs'.st.db.plans = cs.st.db.plans ∧ cs'.st.now = cs.st.now ∧
      cs'.txPE = cs.txPE ∧ (∃ ext, cs'.txEP = cs.txEP ++ ext) := by
  induction ps with
  | nil =>
    intro cs cs' h
    unfold processPropsUpd at h
    injection h with h1 h2
    subst h2
    exact ⟨rfl, rfl, rfl, [], by simp⟩
  | cons pd rest ih =>
    intro cs cs' h
    unfold processPropsUpd at h
    split at h
    case _ e st1 heq => exact absurd h (by simp)
    case _ prop st1 heq =>
      split at h
      case _ e cs2 heq2 => exact absurd h (by simp)
      case _ ep cs2 heq2 =>
        obtain ⟨hfp1, _, _, _, hfn⟩ :=
          findOrCreateProperty_frame regexOk _ cs.st (.ok prop) st1 heq
        obtain ⟨hip1, _, _, _, _, hin, hipe, ⟨ext1, hext1⟩⟩ :=
          insertEpRow_frame tpeId prop.id pd.required { cs with st := st1 } (.ok ep) cs2 heq2
        obtain ⟨hr1, hrn, hrpe, ⟨ext2, hext2⟩⟩ := ih cs2 cs' h
        refine ⟨by rw [hr1, hip1]; exact hfp1, by rw [hrn, hin]; exact hfn,
          by rw [hrpe, hipe], ⟨ext1 ++ ext2, ?_⟩⟩
        rw [hext2, hext1, List.append_assoc]

theorem processEventsUpd_frame (regexOk : String → Bool) (planId : Nat)
    (evs : List TrackingPlanEventDto) :
    ∀ cs cs', processEventsUpd regexOk planId evs cs = (.ok (), cs') →
      cs'.st.db.plans = cs.st.db.plans ∧ cs'.st.now = cs.st.now ∧
      (∃ ext, cs'.txPE = cs.txPE ++ ext ∧
        ∀ q ∈ ext, q.tracking_plan_id = planId ∧ q.is_deleted = false) ∧
      (∃ ext, cs'.txEP = cs.txEP ++ ext) := by
  induction evs with
  | nil =>
    intro cs cs' h
    unfold processEventsUpd at h
    injection h with h1 h2
    subst h2
    exact ⟨rfl, rfl, ⟨[], by simp, by simp⟩, ⟨[], by simp⟩⟩
  | cons ed rest ih =>
    intro cs cs' h
    unfold processEventsUpd at h
    split at h
    case _ e st1 heq => exact absurd h (by simp)
    case _ ev st1 heq =>
      split at h
      case _ e cs2 heq2 => exact absurd h (by simp)
      case _ tpe cs2 heq2 =>
        split at h
        case _ e cs3 heq3 => exact absurd h (by simp)
        case _ u cs3 heq3 =>
          obtain ⟨hfe1, _, _, _, hfen⟩ :=
            findOrCreateEvent_frame _ cs.st (.ok ev) st1 heq
          obtain ⟨hit1, _, _, _, _, hitn, hitep, ⟨ext1, hext1, hprop1⟩⟩ :=
            insertTpeRow_frame planId ev.id ed.additionalProperties
              { cs with st := st1 } (.ok tpe) cs2 heq2
          obtain ⟨hpp1, hppn, hpppe, ⟨ext2, hext2⟩⟩ :=
            processPropsUpd_frame regexOk tpe.id ed.properties cs2 cs3 heq3
          obtain ⟨hr1, hrn, ⟨ext3, hext3, hprop3⟩, ⟨ext4, hext4⟩⟩ := ih cs3 cs' h
          refine ⟨by rw [hr1, hpp1, hit1]; exact hfe1,
            by rw [hrn, hppn, hitn]; exact hfen, ⟨ext1 ++ ext3, ?_, ?_⟩, ?_⟩
          · rw [hext3, hpppe, hext1, List.append_assoc]
          · intro q hq
            rcases List.mem_append.mp hq with hq | hq
            · exact hprop1 q hq
            · exact hprop3 q hq
          · refine ⟨ext2 ++ ext4, ?_⟩
            rw [hext4, hext2, hitep, List.append_assoc]

theorem planUpdApply_id (data : UpdateTrackingPlanDto) (i : Nat)
    (h1 : strTruthy data.name = false) (h2 : strTruthy data.description = false)
    (p : PlanRow) : planUpdApply data i p = p := by
  have hn : strOr data.name p.name = p.name := by
    rcases hdn : data.name with _ | n
    · rfl
    · rw [hdn] at h1
      simp [strTruthy] at h1
      simp [strOr, h1]
  have hd : strOr data.description p.description = p.description := by
    rcases hdd : data.description with _ | d0
    · rfl
    · rw [hdd] at h2
      simp [strTruthy] at h2
      simp [strOr, h2]
  unfold planUpdApply
  rw [hn, hd]
  split <;> rfl

theorem applyPlanUpdateData_shape (data : UpdateTrackingPlanDto) (i : Nat) (cs : CState) :
    (applyPlanUpdateData data i cs).st.db.plans = cs.st.db.plans.map (planUpdApply data i) ∧
    (applyPlanUpdateData data i cs).st.db.events = cs.st.db.events ∧
    (applyPlanUpdateData data i cs).st.db.props = cs.st.db.props ∧
    (applyPlanUpdateData data i cs).st.db.planEvents = cs.st.db.planEvents ∧
    (applyPlanUpdateData data i cs).st.db.eventProps = cs.st.db.eventProps ∧
    (applyPlanUpdateData data i cs).st.now = cs.st.now ∧
    (applyPlanUpdateData data i cs).st.faults = cs.st.faults ∧
    (applyPlanUpdateData data i cs).txPE = cs.txPE ∧
    (applyPlanUpdateData data i cs).txEP = cs.txEP := by
  unfold applyPlanUpdateData
  split
  · exact ⟨rfl, rfl, rfl, rfl, rfl, rfl, rfl, rfl, rfl⟩
  · rename_i hcond
    have h1 : strTruthy data.name = false := by
      rcases hb : strTruthy data.name with _ | _
      · rfl
      · exact absurd (by rw [hb]; exact Or.inl rfl : strTruthy data.name = true ∨
          strTruthy data.description = true) (by simpa using hcond)
    have h2 : strTruthy data.description = false := by
      rcases hb : strTruthy data.description with _ | _
      · rfl
      · exact absurd (by rw [hb]; exact Or.inr rfl : strTruthy data.name = true ∨
          strTruthy data.description = true) (by simpa using hcond)
    refine ⟨?_, rfl, rfl, rfl, rfl, rfl, rfl, rfl, rfl⟩
    rw [List.map_congr_left fun p _ => planUpdApply_id data i h1 h2 p]
    simp

theorem planNameCheck_some (data : UpdateTrackingPlanDto) (plans : List PlanRow) (i : Nat)
    (plan : PlanRow) (n : String) (hn : data.name = some n) :
    planNameCheck data plans i plan =
      (if !(n == "") && !(n == plan.name) then
        match findPlanByNameExcludingId plans n i with
        | some _ => .error (.uniqueConstraint "TrackingPlan" n)
        | none => .ok ()
      else .ok ()) := by
  unfold planNameCheck
  rw [hn]

theorem updateTrackingPlanBody_found (regexOk : String → Bool) (i : Nat)
    (data : UpdateTrackingPlanDto) (cs : CState) (plan : PlanRow)
    (hplan : findPlanById cs.st.db.plans i = some plan) :
    updateTrackingPlanBody regexOk i data cs =
      (match planNameCheck data cs.st.db.plans i plan with
       | .error e => (.error e, cs)
       | .ok _ =>
         match data.events with
         | none => (.ok (), applyPlanUpdateData data i cs)
         | some evs =>
           processEventsUpd regexOk i evs
             { applyPlanUpdateData data i cs with
               txPE := softDeleteTpeFor i cs.st.now (applyPlanUpdateData data i cs).txPE }) := by
  unfold updateTrackingPlanBody
  rw [hplan]

theorem updateBody_ok_shape (regexOk : String → Bool) (i : Nat)
    (data : UpdateTrackingPlanDto) (evs : List TrackingPlanEventDto)
    (hevs : data.events = some evs) (cs cs' : CState)
    (h : updateTrackingPlanBody regexOk i data cs = (.ok (), cs')) :
    (∃ newPE, cs'.txPE = softDeleteTpeFor i cs.st.now cs.txPE ++ newPE ∧
      ∀ q ∈ newPE, q.tracking_plan_id = i ∧ q.is_deleted = false) ∧
    (∃ newEP, cs'.txEP = cs.txEP ++ newEP) ∧
    cs'.st.db.plans = cs.st.db.plans.map (planUpdApply data i) := by
  unfold updateTrackingPlanBody at h
  split at h
  · exact absurd h (by simp)
  case _ plan hplan =>
    split at h
    case _ e hnc => exact absurd h (by simp)
    case _ u hnc =>
      split at h
      case _ hev =>
        rw [hevs] at hev
        exact absurd hev (by simp)
      case _ evs' hev =>
        obtain ⟨ha_plans, _, _, _, _, ha_now, _, ha_pe, ha_ep⟩ :=
          applyPlanUpdateData_shape data i cs
        obtain ⟨hp_plans, hp_now, ⟨extPE, hpe, hprop⟩, ⟨extEP, hep⟩⟩ :=
          processEventsUpd_frame regexOk i evs' _ cs' h
        refine ⟨⟨extPE, ?_, hprop⟩, ⟨extEP, ?_⟩, ?_⟩
        · rw [hpe]
          dsimp only
          rw [ha_pe]
        · rw [hep]
          dsimp only
          rw [ha_ep]
        · rw [hp_plans]
          dsimp only
          rw [ha_plans]

/-- C6 (amended): for an update of an existing plan —
(a) when a truthy new name differing from the current one is supplied and
another non-deleted plan (excluding this plan's own id) already bears it, the
whole update fails with the uniqueness error and the state is unchanged;
(b) when an event list is supplied and the update succeeds, the final
plan-event link table is the soft-delete of all of this plan's previous links
followed by freshly created links for this plan, the pre-existing
event-property link rows are preserved *unchanged* (they are NOT transitively
soft-deleted — only new rows are appended), and the plan table reflects the
truthy name/description updates applied to this plan's row only. -/
theorem update_plan_soft_delete_and_name (regexOk : String → Bool) (i : Nat)
    (data : UpdateTrackingPlanDto) (st : St) :
    (∀ n plan q, data.name = some n → n ≠ "" →
      findPlanById st.db.plans i = some plan → n ≠ plan.name →
      findPlanByNameExcludingId st.db.plans n i = some q →
      updateTrackingPlan regexOk i data st =
        (.err "UPDATE_TRACKING_PLAN_ERROR"
          ((ThrownError.uniqueConstraint "TrackingPlan" n).message), st)) ∧
    (∀ evs, data.events = some evs →
      (updateTrackingPlan regexOk i data st).1.isOk = true →
      (∃ newPE, (updateTrackingPlan regexOk i data st).2.db.planEvents =
          softDeleteTpeFor i st.now st.db.planEvents ++ newPE ∧
        ∀ q ∈ newPE, q.tracking_plan_id = i ∧ q.is_deleted = false) ∧
      (∃ newEP, (updateTrackingPlan regexOk i data st).2.db.eventProps =
          st.db.eventProps ++ newEP) ∧
      (updateTrackingPlan regexOk i data st).2.db.plans =
        st.db.plans.map (planUpdApply data i)) := by
  constructor
  · intro n plan q hn hne hplan hnp hex
    have hnc : planNameCheck data st.db.plans i plan =
        .error (.uniqueConstraint "TrackingPlan" n) := by
      rw [planNameCheck_some data st.db.plans i plan n hn]
      have hc : (!(n == "") && !(n == plan.name)) = true := by
        simp [hne, hnp]
      rw [hc]
      simp [hex]
    have hb : updateTrackingPlanBody regexOk i data (startTx st) =
        (.error (.uniqueConstraint "TrackingPlan" n), startTx st) := by
      rw [updateTrackingPlanBody_found regexOk i data (startTx st) plan hplan]
      simp only [startTx]
      rw [hnc]
    unfold updateTrackingPlan
    rw [hb]
    rfl
  · intro evs hevs hok
    rcases hbody : updateTrackingPlanBody regexOk i data (startTx st) with ⟨res, cs⟩
    cases res with
    | error e =>
      have hupd : updateTrackingPlan regexOk i data st =
          (.err "UPDATE_TRACKING_PLAN_ERROR" e.message, rollbackTx cs) := by
        unfold updateTrackingPlan
        rw [hbody]
      rw [hupd] at hok
      exact absurd hok (by simp [ServiceResponse.isOk])
    | ok u =>
      cases u
      have hupd : updateTrackingPlan regexOk i data st =
          (.ok (mapPlanToResponse (commitTx cs).db i), commitTx cs) := by
        unfold updateTrackingPlan
        rw [hbody]
      obtain ⟨⟨extPE, hpe, hprop⟩, ⟨extEP, hep⟩, hplans⟩ :=
        updateBody_ok_shape regexOk i data evs hevs (startTx st) cs hbody
      rw [hupd]
      exact ⟨⟨extPE, hpe, hprop⟩, ⟨extEP, hep⟩, hplans⟩

/-- Existing plan row of the update scenario. -/
def updPlanRow : PlanRow :=
  { id := 1, name := "Plan", description := "d", create_time := 0, update_time := 0,
    is_deleted := false, deleted_at := none }

/-- A second, non-deleted plan whose name collides with the attempted rename. -/
def otherPlanRow : PlanRow :=
  { id := 10, name := "Other", description := "o", create_time := 0, update_time := 0,
    is_deleted := false, deleted_at := none }

/-- The plan's existing event row. -/
def updEventRow : EventRow :=
  { id := 3, name := "Old", type := "track", description := "A",
    create_time := 0, update_time := 0, is_deleted := false, deleted_at := none }

/-- The plan's existing property row. -/
def updPropRow : PropRow :=
  { id := 5, name := "oldp", type := "string", description := "D",
    validation_rules := none, create_time := 0, update_time := 0,
    is_deleted := false, deleted_at := none }

/-- The plan's existing plan-event link. -/
def updTpeRow : TpeRow :=
  { id := 2, tracking_plan_id := 1, event_id := 3, additional_properties := false,
    created_at := 0, is_deleted := false, deleted_at := none }

/-- The existing event-property link hanging off `updTpeRow`. -/
def updEpRow : EpRow :=
  { id := 4, tracking_plan_event_id := 2, property_id := 5, required := true,
    created_at := 0, is_deleted := false, deleted_at := none }

/-- The store before the update. -/
def updSt : St :=
  { db := { plans := [updPlanRow, otherPlanRow], events := [updEventRow],
            props := [updPropRow], planEvents := [updTpeRow], eventProps := [updEpRow],
            nextId := 11 },
    faults := [], now := 9 }

/-- A nested property definition for the new event list. -/
def updNewPropDto : EventPropertyDto :=
  { name := "np", type := "number", required := false, description := "np",
    validation_rules := none }

/-- The new event definition supplied to the update. -/
def updNewEventDto : TrackingPlanEventDto :=
  { name := "New", type := "track", description := "n", additionalProperties := true,
    properties := [updNewPropDto] }

/-- An update request carrying a fresh name and an event list. -/
def updReq : UpdateTrackingPlanDto :=
  { name := some "Plan2", description := none, events := some [updNewEventDto] }

/-- An update request renaming the plan onto an existing plan's name. -/
def updNameClashReq : UpdateTrackingPlanDto :=
  { name := some "Other", description := none, events := none }

/-- Witness for C6's amended theorem: the rename onto `Other` fails with the
uniqueness error and no state change, and the successful update with an event
list only appends to the event-property table. -/
theorem update_plan_soft_delete_and_name_witness :
    updateTrackingPlan (fun _ => true) 1 updNameClashReq updSt =
      (.err "UPDATE_TRACKING_PLAN_ERROR"
        ((ThrownError.uniqueConstraint "TrackingPlan" "Other").message), updSt) ∧
    (∃ newEP, (updateTrackingPlan (fun _ => true) 1 updReq updSt).2.db.eventProps =
      updSt.db.eventProps ++ newEP) :=
  ⟨(update_plan_soft_delete_and_name (fun _ => true) 1 updNameClashReq updSt).1
      "Other" updPlanRow otherPlanRow rfl (by decide) rfl (by decide) rfl,
   ((update_plan_soft_delete_and_name (fun _ => true) 1 updReq updSt).2
      [updNewEventDto] rfl rfl).2.1⟩

/-- Counterexample for C6 as stated: the update succeeds and soft-deletes the
plan's plan-event link, but the link's event-property row survives with
`is_deleted = false` — the claimed *transitive* soft-delete of event-property
links does not happen. -/
theorem event_property_link_not_transitively_soft_deleted :
    (updateTrackingPlan (fun _ => true) 1 updReq updSt).1.isOk = true ∧
    ({ updTpeRow with is_deleted := true, deleted_at := some 9 } : TpeRow) ∈
      (updateTrackingPlan (fun _ => true) 1 updReq updSt).2.db.planEvents ∧
    updEpRow ∈ (updateTrackingPlan (fun _ => true) 1 updReq updSt).2.db.eventProps ∧
    updEpRow.tracking_plan_event_id = updTpeRow.id ∧
    updEpRow.is_deleted = false := by
  refine ⟨rfl, by decide, by decide, rfl, rfl⟩

/-! ### C2: at-most-one property row per identity within one create -/

/-- Two property rows clash when both are live and share the natural key
(the situation the unique index on `(name, type)` forbids). -/
def propKeyClash (a b : PropRow) : Bool :=
  !a.is_deleted && !b.is_deleted && a.name == b.name && a.type == b.type

/-- No two live rows of the list share a natural key (the `properties` table
invariant maintained by the unique index). -/
def uniquePropKeys : List PropRow → Bool
  | [] => true
  | p :: rest => rest.all (fun q => !(propKeyClash p q)) && uniquePropKeys rest

theorem uniquePropKeys_append (l : List PropRow) (row : PropRow)
    (hu : uniquePropKeys l = true)
    (hno : ∀ q ∈ l, propKeyClash q row = false) :
    uniquePropKeys (l ++ [row]) = true := by
  induction l with
  | nil => simp [uniquePropKeys]
  | cons p t ih =>
    simp only [uniquePropKeys, Bool.and_eq_true, List.all_eq_true] at hu
    obtain ⟨hall, hut⟩ := hu
    have hgoal : ((t ++ [row]).all (fun q => !(propKeyClash p q)) &&
        uniquePropKeys (t ++ [row])) = true := by
      rw [Bool.and_eq_true]
      constructor
      · rw [List.all_append]
        rw [Bool.and_eq_true]
        constructor
        · rw [List.all_eq_true]
          exact hall
        · simp [hno p (List.mem_cons_self p t)]
      · exact ih hut fun q hq => hno q (List.mem_cons_of_mem p hq)
    exact hgoal

theorem uniquePropKeys_filter (l : List PropRow) (hu : uniquePropKeys l = true)
    (n t : String) :
    (l.filter fun q => q.name == n && q.type == t && !q.is_deleted).length ≤ 1 := by
  induction l with
  | nil => simp
  | cons p rest ih =>
    simp only [uniquePropKeys, Bool.and_eq_true, List.all_eq_true] at hu
    obtain ⟨hall, hurest⟩ := hu
    by_cases hp : (p.name == n && p.type == t && !p.is_deleted) = true
    · rw [List.filter_cons_of_pos (by exact hp)]
      have hrest : rest.filter (fun q => q.name == n && q.type == t && !q.is_deleted) = [] := by
        rw [List.filter_eq_nil_iff]
        intro q hq hqt
        have hclash := hall q hq
        simp only [Bool.and_eq_true, beq_iff_eq, Bool.not_eq_true'] at hp hqt
        obtain ⟨⟨hp1, hp2⟩, hp3⟩ := hp
        obtain ⟨⟨hq1, hq2⟩, hq3⟩ := hqt
        simp [propKeyClash, hp1, hp2, hp3, hq1, hq2, hq3] at hclash
      rw [hrest]
      simp
    · rw [List.filter_cons_of_neg (by simpa using hp)]
      exact ih hurest

theorem findProp_stable (props ext : List PropRow) (n t : String) (row : PropRow)
    (h : findPropByNameAndType props n t = some row) :
    findPropByNameAndType (props ++ ext) n t = some row := by
  unfold findPropByNameAndType at *
  rw [List.find?_append, h]
  rfl

theorem findProp_append_new (props : List PropRow) (n t : String) (row : PropRow)
    (hnone : findPropByNameAndType props n t = none)
    (hrow : (row.name == n && row.type == t && !row.is_deleted) = true) :
    findPropByNameAndType (props ++ [row]) n t = some row := by
  unfold findPropByNameAndType at *
  rw [List.find?_append, hnone]
  simp [List.find?_cons, hrow]

theorem findOrCreateProperty_ok (regexOk : String → Bool) (d : CreatePropertyDto) (st : St)
    (p : PropRow) (st' : St)
    (hu : uniquePropKeys st.db.props = true)
    (h : findOrCreateProperty regexOk d st = (.ok p, st')) :
    uniquePropKeys st'.db.props = true ∧
    (∃ ext, st'.db.props = st.db.props ++ ext) ∧
    findPropByNameAndType st'.db.props d.name d.type = some p ∧
    p.name = d.name ∧ p.type = d.type ∧
    st'.db.plans = st.db.plans ∧ st'.db.events = st.db.events ∧
    st'.db.planEvents = st.db.planEvents ∧ st'.db.eventProps = st.db.eventProps := by
  unfold findOrCreateProperty at h
  split at h
  case _ p0 heq =>
    split at h
    · exact absurd h (by simp)
    · split at h
      · exact absurd h (by simp)
      · injection h with h1 h2
        subst h2
        injection h1 with h1
        subst h1
        have hpred := List.find?_some heq
        simp only [Bool.and_eq_true, beq_iff_eq, Bool.not_eq_true'] at hpred
        obtain ⟨⟨hn, ht⟩, hd⟩ := hpred
        exact ⟨hu, ⟨[], by simp⟩, heq, hn, ht, rfl, rfl, rfl, rfl⟩
  case _ heq =>
    split at h
    · exact absurd h (by simp)
    · unfold insertPropRow at h
      split at h
      case _ f st1 heq2 => exact absurd h (by simp)
      case _ st1 heq2 =>
        obtain ⟨hdb, hnow⟩ := popFault_parts st none st1 heq2
        injection h with h1 h2
        subst h2
        injection h1 with h1
        subst h1
        have hprops : st1.db.props = st.db.props := by rw [hdb]
        refine ⟨?_, ?_, ?_, rfl, rfl, by rw [hdb], by rw [hdb], by rw [hdb], by rw [hdb]⟩
        · show uniquePropKeys (st1.db.props ++ [_]) = true
          rw [hprops]
          apply uniquePropKeys_append _ _ hu
          intro q hq
          have hnq := List.find?_eq_none.mp heq q hq
          simp only [Bool.not_eq_true] at hnq
          cases hqd : q.is_deleted <;> cases h1 : q.name == d.name <;>
            cases h2 : q.type == d.type <;>
            simp_all [propKeyClash]
        · exact ⟨_, by rw [← hprops]⟩
        · show findPropByNameAndType (st1.db.props ++ [_]) d.name d.type = _
          rw [hprops]
          exact findProp_append_new _ _ _ _ heq (by simp)

/-- Flatten the nested property entries of a create response's event list. -/
def collectPropEntries : List EventRespDto → List PropRespDto
  | [] => []
  | e :: rest => e.properties ++ collectPropEntries rest

/-- All nested property references of a tracking-plan service response. -/
def respProps : ServiceResponse TPRespDto → List PropRespDto
  | .ok r => collectPropEntries r.events
  | .err _ _ => []

theorem processPropsCreate_ok (regexOk : String → Bool) (ct : Option Nat) (tpeId : Nat)
    (ps : List EventPropertyDto) :
    ∀ cs out cs', uniquePropKeys cs.st.db.props = true →
      processPropsCreate regexOk ct tpeId ps cs = (.ok out, cs') →
      uniquePropKeys cs'.st.db.props = true ∧
      (∃ ext, cs'.st.db.props = cs.st.db.props ++ ext) ∧
      cs'.st.db.plans = cs.st.db.plans ∧ cs'.st.db.events = cs.st.db.events ∧
      cs'.st.db.planEvents = cs.st.db.planEvents ∧
      cs'.st.db.eventProps = cs.st.db.eventProps ∧
      (∀ entry ∈ out, ∃ row,
        findPropByNameAndType cs'.st.db.props entry.name entry.type = some row ∧
        row.id = entry.id) := by
  induction ps with
  | nil =>
    intro cs out cs' hu h
    unfold processPropsCreate at h
    injection h with h1 h2
    subst h2
    injection h1 with h1
    subst h1
    exact ⟨hu, ⟨[], by simp⟩, rfl, rfl, rfl, rfl, by simp⟩
  | cons pd rest ih =>
    intro cs out cs' hu h
    unfold processPropsCreate at h
    split at h
    case _ e st1 heq => exact absurd h (by simp)
    case _ prop st1 heq =>
      split at h
      case _ e cs2 heq2 => exact absurd h (by simp)
      case _ ep cs2 heq2 =>
        split at h
        case _ e cs3 heq3 => exact absurd h (by simp)
        case _ tail cs3 heq3 =>
          injection h with h1 h2
          subst h2
          injection h1 with h1
          subst h1
          obtain ⟨hu1, ⟨ext1, hext1⟩, hfind1, hpn, hpt, hplans1, hev1, hpe1, hep1⟩ :=
            findOrCreateProperty_ok regexOk _ cs.st prop st1 hu heq
          obtain ⟨hip_plans, hip_events, hip_props, hip_pe, hip_ep, _, _, _⟩ :=
            insertEpRow_frame tpeId prop.id pd.required { cs with st := st1 } (.ok ep)
              cs2 heq2
          have hu2 : uniquePropKeys cs2.st.db.props = true := by
            rw [hip_props]
            exact hu1
          obtain ⟨hu3, ⟨ext3, hext3⟩, hplans3, hev3, hpe3, hep3, hgood3⟩ :=
            ih cs2 tail cs3 hu2 heq3
          refine ⟨hu3, ⟨ext1 ++ ext3, ?_⟩, ?_, ?_, ?_, ?_, ?_⟩
          · rw [hext3, hip_props, hext1, List.append_assoc]
          · rw [hplans3, hip_plans]
            exact hplans1
          · rw [hev3, hip_events]
            exact hev1
          · rw [hpe3, hip_pe]
            exact hpe1
          · rw [hep3, hip_ep]
            exact hep1
          · intro entry hentry
            rcases List.mem_cons.mp hentry with hentry | hentry
            · subst hentry
              refine ⟨prop, ?_, rfl⟩
              have hstable : findPropByNameAndType cs2.st.db.props prop.name prop.type =
                  some prop := by
                rw [hip_props, hpn, hpt]
                exact hfind1
              rw [hext3]
              exact findProp_stable _ _ _ _ _ hstable
            · exact hgood3 entry hentry

theorem processEventsCreate_ok (regexOk : String → Bool) (ct : Option Nat) (planId : Nat)
    (evs : List TrackingPlanEventDto) :
    ∀ cs out cs', uniquePropKeys cs.st.db.props = true →
      processEventsCreate regexOk ct planId evs cs = (.ok out, cs') →
      uniquePropKeys cs'.st.db.props = true ∧
      (∃ ext, cs'.st.db.props = cs.st.db.props ++ ext) ∧
      (∀ entry ∈ collectPropEntries out, ∃ row,
        findPropByNameAndType cs'.st.db.props entry.name entry.type = some row ∧
        row.id = entry.id) := by
  induction evs with
  | nil =>
    intro cs out cs' hu h
    unfold processEventsCreate at h
    injection h with h1 h2
    subst h2
    injection h1 with h1
    subst h1
    exact ⟨hu, ⟨[], by simp⟩, by simp [collectPropEntries]⟩
  | cons ed rest ih =>
    intro cs out cs' hu h
    unfold processEventsCreate at h
    split at h
    case _ e st1 heq => exact absurd h (by simp)
    case _ ev st1 heq =>
      split at h
      case _ e cs2 heq2 => exact absurd h (by simp)
      case _ tpe cs2 heq2 =>
        split at h
        case _ e cs3 heq3 => exact absurd h (by simp)
        case _ props cs3 heq3 =>
          split at h
          case _ e cs4 heq4 => exact absurd h (by simp)
          case _ tail cs4 heq4 =>
            injection h with h1 h2
            subst h2
            injection h1 with h1
            subst h1
            obtain ⟨hfe_plans, hfe_props, hfe_pe, hfe_ep, _⟩ :=
              findOrCreateEvent_frame _ cs.st (.ok ev) st1 heq
            obtain ⟨hit_plans, hit_events, hit_props, hit_pe, hit_ep, _, _, _⟩ :=
              insertTpeRow_frame planId ev.id ed.additionalProperties
                { cs with st := st1 } (.ok tpe) cs2 heq2
            have hu2 : uniquePropKeys cs2.st.db.props = true := by
              rw [hit_props]
              show uniquePropKeys st1.db.props = true
              rw [hfe_props]
              exact hu
            obtain ⟨hu3, ⟨ext3, hext3⟩, _, _, _, _, hgood3⟩ :=
              processPropsCreate_ok regexOk ct tpe.id ed.properties cs2 props cs3 hu2 heq3
            obtain ⟨hu4, ⟨ext4, hext4⟩, hgood4⟩ := ih cs3 tail cs4 hu3 heq4
            refine ⟨hu4, ⟨ext3 ++ ext4, ?_⟩, ?_⟩
            · rw [hext4, hext3, hit_props]
              show st1.db.props ++ ext3 ++ ext4 = cs.st.db.props ++ (ext3 ++ ext4)
              rw [hfe_props, List.append_assoc]
            · intro entry hentry
              rcases List.mem_append.mp hentry with hentry | hentry
              · obtain ⟨row, hrow, hid⟩ := hgood3 entry hentry
                refine ⟨row, ?_, hid⟩
                rw [hext4]
                exact findProp_stable _ _ _ _ _ hrow
              · exact hgood4 entry hentry

/-- C2: for every create-tracking-plan request on a store whose live property
rows have pairwise-distinct (name, type) keys, a successful create preserves
that invariant, only appends to the property table, leaves at most one live
row per (name, type) — so two event definitions referencing the same property
identity share one row, the second reference resolving to the row the first
created or found — and any two nested property references in the returned
response that agree on name and type carry the identical property id. -/
theorem create_plan_property_reuse (regexOk : String → Bool)
    (data : CreateTrackingPlanDto) (st : St)
    (hu : uniquePropKeys st.db.props = true)
    (hok : (createTrackingPlan regexOk data st).1.isOk = true) :
    uniquePropKeys (createTrackingPlan regexOk data st).2.db.props = true ∧
    (∃ ext, (createTrackingPlan regexOk data st).2.db.props = st.db.props ++ ext) ∧
    (∀ n t, ((createTrackingPlan regexOk data st).2.db.props.filter fun q =>
        q.name == n && q.type == t && !q.is_deleted).length ≤ 1) ∧
    (∀ e1 ∈ respProps (createTrackingPlan regexOk data st).1,
     ∀ e2 ∈ respProps (createTrackingPlan regexOk data st).1,
      e1.name = e2.name → e1.type = e2.type → e1.id = e2.id) := by
  rcases hbody : createTrackingPlanBody regexOk data (startTx st) with ⟨res, cs⟩
  cases res with
  | error e =>
    have hc : createTrackingPlan regexOk data st =
        (.err "CREATE_TRACKING_PLAN_ERROR" e.message, rollbackTx cs) := by
      unfold createTrackingPlan
      rw [hbody]
    rw [hc] at hok
    exact absurd hok (by simp [ServiceResponse.isOk])
  | ok resp =>
    have hc : createTrackingPlan regexOk data st = (.ok resp, commitTx cs) := by
      unfold createTrackingPlan
      rw [hbody]
    unfold createTrackingPlanBody at hbody
    split at hbody
    · exact absurd hbody (by simp)
    split at hbody
    case _ e st1 heqP => exact absurd hbody (by simp)
    case _ plan st1 heqP =>
      split at hbody
      case _ e cs2 heqE => exact absurd hbody (by simp)
      case _ evResp cs2 heqE =>
        injection hbody with h1 h2
        subst h2
        injection h1 with h1
        subst h1
        obtain ⟨hpp, _, _, _, _⟩ :=
          insertPlanRow_frame data.name data.description data.create_time
            (startTx st).st (.ok plan) st1 heqP
        have hu1 : uniquePropKeys st1.db.props = true := by
          rw [hpp]
          exact hu
        obtain ⟨hu2, ⟨ext, hext⟩, hgood⟩ :=
          processEventsCreate_ok regexOk data.create_time plan.id data.events
            _ evResp cs2 hu1 heqE
        rw [hc]
        refine ⟨hu2, ⟨ext, ?_⟩, ?_, ?_⟩
        · show cs2.st.db.props = st.db.props ++ ext
          rw [hext]
          show st1.db.props ++ ext = st.db.props ++ ext
          rw [hpp]
          rfl
        · intro n t
          exact uniquePropKeys_filter _ hu2 n t
        · intro e1 he1 e2 he2 hn ht
          obtain ⟨r1, hr1, hid1⟩ := hgood e1 he1
          obtain ⟨r2, hr2, hid2⟩ := hgood e2 he2
          have hrr : r1 = r2 := by
            rw [hn, ht] at hr1
            rw [hr1] at hr2
            exact Option.some.inj hr2
          rw [← hid1, ← hid2, hrr]

/-- A shared property definition referenced by the first event. -/
def sharedPropDto1 : EventPropertyDto :=
  { name := "product_id", type := "string", required := true, description := "pid",
    validation_rules := none }

/-- The same property identity referenced by the second event. -/
def sharedPropDto2 : EventPropertyDto :=
  { sharedPropDto1 with required := false }

/-- First event of the shared-property plan. -/
def sharedEvDto1 : TrackingPlanEventDto :=
  { name := "E1", type := "track", description := "e1", additionalProperties := false,
    properties := [sharedPropDto1] }

/-- Second event of the shared-property plan. -/
def sharedEvDto2 : TrackingPlanEventDto :=
  { name := "E2", type := "track", description := "e2", additionalProperties := true,
    properties := [sharedPropDto2] }

/-- A plan whose two events both reference `product_id`/`string`. -/
def sharedPropReq : CreateTrackingPlanDto :=
  { name := "P2", description := "D", events := [sharedEvDto1, sharedEvDto2],
    create_time := none }

/-- The nested property reference returned under the first event. -/
def sharedEntry1 : PropRespDto :=
  { id := 4, name := "product_id", type := "string", description := "pid",
    required := true, validation_rules := none }

/-- The nested property reference returned under the second event. -/
def sharedEntry2 : PropRespDto :=
  { sharedEntry1 with required := false }

/-- Witness for C2: creating the two-event plan with the shared `product_id`
property on an empty store leaves at most one live `product_id`/`string` row,
and the two nested references in the response carry the identical id. -/
theorem create_plan_property_reuse_witness :
    sharedEntry1.id = sharedEntry2.id ∧
    ((createTrackingPlan (fun _ => true) sharedPropReq plainSt).2.db.props.filter fun q =>
      q.name == "product_id" && q.type == "string" && !q.is_deleted).length ≤ 1 :=
  ⟨(create_plan_property_reuse (fun _ => true) sharedPropReq plainSt rfl rfl).2.2.2
      sharedEntry1 (by decide) sharedEntry2 (by decide) rfl rfl,
   (create_plan_property_reuse (fun _ => true) sharedPropReq plainSt rfl rfl).2.2.1
      "product_id" "string"⟩

end DataCatalog
